import Mathlib

/-!
Resume Parser and Job Matcher: the React client.

A shallow embedding of the three source files of the client

* `src/frontend/src/App.jsx`
* `src/frontend/src/components/ResumeParser.jsx`
* `src/frontend/src/components/JobChatbot.jsx`

Every `useState` cell is a field of a structure, every handler is a pure
function on that structure, and an `async` handler is cut at each `await`:
the part before the `await` returns the request it issues, the part after
it takes the reply (`Except AxiosError _`, the rejected promise being
`.error`) and, where the source reads `Date.now()`, the clock value.

JavaScript strings are modelled by `String` (sequences of code points),
`null`/`undefined` by `none`, and `Date.now()` by a natural number of
milliseconds supplied by the environment. A `match_score` is an exact
rational. The intent classifier of the service is not part of the client
sources; its keyword rules are modelled from the specification and marked as
such.
-/

namespace ResumeJobMatcher

/-! ## Data exchanged with the service -/

/-- One entry of `Profile.experience`, as rendered by `ResumeParser`. -/
structure Experience where
  title : String
  company : String
  start_date : String
  end_date : Option String
  description : Option String
  deriving DecidableEq, Repr

/-- One entry of `Profile.education`, as rendered by `ResumeParser`. -/
structure Education where
  degree : String
  institution : String
  start_date : String
  end_date : Option String
  field_of_study : Option String
  deriving DecidableEq, Repr

/-- The parsed resume (`response.data.data` of `/parse-resume`). -/
structure Profile where
  name : Option String
  email : Option String
  phone : Option String
  skills : List String
  experience : List Experience
  education : List Education
  deriving DecidableEq, Repr

/-- One element of `job_suggestions`, with the fields `JobChatbot` reads. -/
structure Job where
  title : String
  company : String
  location : String
  match_score : ℚ
  posted_date : Option String
  description : String
  salary : Option String
  url : String
  deriving DecidableEq, Repr

/-- A browser `File` as far as the client looks at it (`name`, `size`, `type`). -/
structure File where
  name : String
  size : Nat
  type : String
  deriving DecidableEq, Repr

/-- Body of `POST /chat/{sessionId}`. -/
structure ChatBody where
  role : String
  content : String
  deriving DecidableEq, Repr

/-- `response.data` of `POST /chat/{sessionId}`; `job_suggestions` may be
missing or `null`, which is why the source tests it for truthiness. -/
structure ChatResponse where
  message : String
  job_suggestions : Option (List Job)
  deriving DecidableEq, Repr

/-- `response.data` of `POST /parse-resume`. -/
structure ParseResponse where
  success : Bool
  data : Option Profile
  message : Option String
  deriving DecidableEq, Repr

/-- A rejected axios promise; `detail` is `err.response?.data?.detail`. -/
structure AxiosError where
  detail : Option String
  deriving DecidableEq, Repr

/-- The three requests of the client. `chat sid b` is
`axios.post(API_BASE_URL/chat/sid, b)`, `createAgent sid d` is
`axios.post(API_BASE_URL/create-agent/sid, d)` and `parseResume f` is the
multipart post of `f` to `API_BASE_URL/parse-resume`. -/
inductive Request where
  | parseResume (file : File)
  | createAgent (sessionId : String) (data : Option Profile)
  | chat (sessionId : String) (body : ChatBody)
  deriving DecidableEq, Repr

/-! ## JavaScript helpers -/

/-- Code points removed by `String.prototype.trim` (WhiteSpace and
LineTerminator of ECMAScript). -/
def jsIsWhiteSpace (c : Char) : Bool :=
  c.toNat ∈ [0x09, 0x0A, 0x0B, 0x0C, 0x0D, 0x20, 0xA0, 0x1680,
    0x2000, 0x2001, 0x2002, 0x2003, 0x2004, 0x2005, 0x2006, 0x2007, 0x2008,
    0x2009, 0x200A, 0x2028, 0x2029, 0x202F, 0x205F, 0x3000, 0xFEFF]

/-- `s.trim()`. -/
def jsTrim (s : String) : String :=
  String.mk ((s.data.dropWhile jsIsWhiteSpace).reverse.dropWhile jsIsWhiteSpace).reverse

/-- Truthiness of a JavaScript string value that may be `null`: neither
`null` nor the empty string. -/
def jsTruthy : Option String → Bool
  | none => false
  | some s => s ≠ ""

/-- A string value that may be `null` inside a template literal. -/
def jsTemplate : Option String → String
  | none => "null"
  | some s => s

/-- `a || b` on string values that may be `null`. -/
def jsOr (a : Option String) (b : String) : String :=
  match a with
  | some s => if s ≠ "" then s else b
  | none => b

/-! ## `JobChatbot.jsx` -/

/-- An element of the `messages` state; the user message of the source has
no `jobSuggestions` field. -/
structure Message where
  id : Nat
  role : String
  content : String
  jobSuggestions : Option (List Job)
  deriving DecidableEq, Repr

/-- The `useState` cells of `JobChatbot`. -/
structure JobChatbot where
  messages : List Message
  inputMessage : String
  loading : Bool
  jobSuggestions : List Job
  expandedJob : Option Nat
  deriving DecidableEq, Repr

/-- The initial values of the `useState` cells of `JobChatbot`. -/
def JobChatbot.init : JobChatbot :=
  { messages := [], inputMessage := "", loading := false, jobSuggestions := [],
    expandedJob := none }

/-- The part of `initChat` before its `await`: `setLoading(true)` and the post
of the fixed greeting turn. -/
def initChatBegin (c : JobChatbot) (sessionId : Option String) : JobChatbot × Request :=
  ({ c with loading := true },
   Request.chat (jsTemplate sessionId) { role := "user", content := "hello" })

/-- The part of `initChat` after its `await` (`try` body, `catch`, `finally`). -/
def initChatEnd (c : JobChatbot) (now : Nat) (reply : Except AxiosError ChatResponse) :
    JobChatbot :=
  match reply with
  | .ok response =>
    let newMessage : Message :=
      { id := now, role := "assistant", content := response.message,
        jobSuggestions := some (response.job_suggestions.getD []) }
    let c1 := { c with messages := [newMessage] }
    let c2 := match response.job_suggestions with
      | some js => { c1 with jobSuggestions := js }
      | none => c1
    { c2 with loading := false }
  | .error _ => { c with loading := false }

/-- The effect of `useEffect(..., [sessionId])` run to completion: `initChat`
is called only for a truthy `sessionId`. -/
def initChat (c : JobChatbot) (sessionId : Option String) (now : Nat)
    (reply : Except AxiosError ChatResponse) : JobChatbot × List Request :=
  if jsTruthy sessionId then
    let b := initChatBegin c sessionId
    (initChatEnd b.1 now reply, [b.2])
  else (c, [])

/-- The guard `!inputMessage.trim() || loading` of `handleSendMessage`. -/
def sendBlocked (c : JobChatbot) : Bool :=
  jsTrim c.inputMessage = "" || c.loading

/-- The part of `handleSendMessage` before its `await`; `none` is the early
`return` of the guard. -/
def handleSendMessageBegin (c : JobChatbot) (sessionId : Option String) (now : Nat) :
    Option (JobChatbot × Request) :=
  if sendBlocked c then none
  else
    let userMessage : Message :=
      { id := now, role := "user", content := c.inputMessage, jobSuggestions := none }
    some ({ c with messages := c.messages ++ [userMessage], inputMessage := "", loading := true },
          Request.chat (jsTemplate sessionId) { role := "user", content := c.inputMessage })

/-- The part of `handleSendMessage` after its `await` (`try` body, `catch`,
`finally`); both `setMessages` calls are functional updates of the current
transcript. -/
def handleSendMessageEnd (c : JobChatbot) (now : Nat) (reply : Except AxiosError ChatResponse) :
    JobChatbot :=
  match reply with
  | .ok response =>
    let assistantMessage : Message :=
      { id := now + 1, role := "assistant", content := response.message,
        jobSuggestions := some (response.job_suggestions.getD []) }
    let c1 := { c with messages := c.messages ++ [assistantMessage] }
    let c2 := match response.job_suggestions with
      | some js => if js.length > 0 then { c1 with jobSuggestions := js } else c1
      | none => c1
    { c2 with loading := false }
  | .error _ =>
    let errorMessage : Message :=
      { id := now + 1, role := "assistant",
        content := "Sorry, I encountered an error. Please try again.",
        jobSuggestions := some [] }
    { c with messages := c.messages ++ [errorMessage], loading := false }

/-- The handler `handleSendMessage` run to completion, no other state update
falling between its two halves: `now` is `Date.now()` when the user message
is built, `now2` when the reply is handled. The second component lists the
requests sent. On the mounted client, where other events can fall between
the two halves, a turn is `turnFrom`. -/
def handleSendMessage (c : JobChatbot) (sessionId : Option String) (now : Nat)
    (reply : Except AxiosError ChatResponse) (now2 : Nat) : JobChatbot × List Request :=
  match handleSendMessageBegin c sessionId now with
  | none => (c, [])
  | some (c1, req) => (handleSendMessageEnd c1 now2 reply, [req])

/-- The handler `handleQuickAction`; it sends nothing. -/
def handleQuickAction (c : JobChatbot) (action : String) : JobChatbot :=
  if action = "search_jobs" then
    { c with inputMessage := "Find me job opportunities matching my skills" }
  else if action = "resume_feedback" then
    { c with inputMessage := "Give me feedback on my resume" }
  else if action = "career_advice" then
    { c with inputMessage := "What career advice do you have for me?" }
  else c

/-! ## `ResumeParser.jsx` -/

/-- The `useState` cells of `ResumeParser`. -/
structure ResumeParser where
  file : Option File
  loading : Bool
  error : Option String
  parsedData : Option Profile
  deriving DecidableEq, Repr

/-- The initial values of the `useState` cells of `ResumeParser`. -/
def ResumeParser.init : ResumeParser :=
  { file := none, loading := false, error := none, parsedData := none }

/-- What a handler of `ResumeParser` does to the outside: a request, or a call
of the `onResumeParsed` prop. -/
inductive Effect where
  | request (r : Request)
  | onResumeParsed (data : Option Profile) (sessionId : String)
  deriving DecidableEq, Repr

/-- The MIME type test of `handleFileChange`. -/
def acceptedType (t : String) : Bool :=
  t = "application/pdf" ||
  t = "application/vnd.openxmlformats-officedocument.wordprocessingml.document"

/-- The handler `handleFileChange`; `selectedFile` is `event.target.files[0]`,
`none` when the selection is empty. -/
def handleFileChange (p : ResumeParser) (selectedFile : Option File) : ResumeParser :=
  match selectedFile with
  | none => p
  | some f =>
    if f.type ≠ "application/pdf" ∧
        f.type ≠ "application/vnd.openxmlformats-officedocument.wordprocessingml.document" then
      { p with error := some "Please upload a PDF or DOCX file" }
    else { p with file := some f, error := none }

/-- The handler `handleReset`. -/
def handleReset (p : ResumeParser) : ResumeParser :=
  { p with file := none, parsedData := none, error := none }

/-- The session identifier built in `handleUpload`; `rnd` stands for
`Math.random().toString(36).substr(2, 9)`. -/
def uploadSessionId (now : Nat) (rnd : String) : String :=
  "session_" ++ toString now ++ "_" ++ rnd

/-- The session identifier built by the 'Start Job Hunting' button. -/
def startSessionId (now : Nat) : String :=
  "session_" ++ toString now

/-- The part of `handleUpload` before its first `await`: the guard on `file`,
then `setLoading(true)`, `setError(null)` and the multipart post. -/
def handleUploadBegin (p : ResumeParser) : ResumeParser × Option Request :=
  match p.file with
  | none => ({ p with error := some "Please select a file first" }, none)
  | some f => ({ p with loading := true, error := none }, some (Request.parseResume f))

/-- The part of `handleUpload` between its two `await`s, given the reply of
`/parse-resume`. When the second component is `some (sessionId, data)` the
handler has posted `/create-agent/sessionId` with `data` and is waiting for
it; otherwise it has run through `finally`. -/
def handleUploadParsed (p : ResumeParser) (now : Nat) (rnd : String)
    (reply : Except AxiosError ParseResponse) : ResumeParser × Option (String × Option Profile) :=
  match reply with
  | .ok response =>
    if response.success then
      let data := response.data
      let sessionId := uploadSessionId now rnd
      ({ p with parsedData := data }, some (sessionId, data))
    else
      ({ p with error := some (jsOr response.message "Failed to parse resume"),
                loading := false }, none)
  | .error err =>
    ({ p with error := some (jsOr err.detail "An error occurred while uploading the file"),
              loading := false }, none)

/-- The part of `handleUpload` after its second `await`, given the reply of
`/create-agent/sessionId`; the second component is the call of
`onResumeParsed`, if any. -/
def handleUploadCreated (p : ResumeParser) (sessionId : String) (data : Option Profile)
    (reply : Except AxiosError Unit) : ResumeParser × Option (Option Profile × String) :=
  match reply with
  | .ok _ => ({ p with loading := false }, some (data, sessionId))
  | .error err =>
    ({ p with error := some (jsOr err.detail "An error occurred while uploading the file"),
              loading := false }, none)

/-- The handler `handleUpload` run to completion, with the effects in the
order they happen. `createReply` is consulted only when `/create-agent` is
posted. -/
def handleUpload (p : ResumeParser) (parseReply : Except AxiosError ParseResponse)
    (now : Nat) (rnd : String) (createReply : Except AxiosError Unit) :
    ResumeParser × List Effect :=
  match handleUploadBegin p with
  | (p1, none) => (p1, [])
  | (p1, some req) =>
    match handleUploadParsed p1 now rnd parseReply with
    | (p2, none) => (p2, [Effect.request req])
    | (p2, some (sessionId, data)) =>
      match handleUploadCreated p2 sessionId data createReply with
      | (p3, none) =>
        (p3, [Effect.request req, Effect.request (Request.createAgent sessionId data)])
      | (p3, some (d, sid)) =>
        (p3, [Effect.request req, Effect.request (Request.createAgent sessionId data),
              Effect.onResumeParsed d sid])

/-- The `onClick` of the 'Start Job Hunting' button, which is rendered only
in the branch where `parsedData` is truthy: the arguments it passes to
`onResumeParsed`. -/
def startJobHunting (p : ResumeParser) (now : Nat) : Option (Option Profile × String) :=
  match p.parsedData with
  | none => none
  | some d => some (some d, startSessionId now)

/-! ## `App.jsx` -/

/-- The `useState` cells of `App`. -/
structure App where
  resumeData : Option Profile
  sessionId : Option String
  deriving DecidableEq, Repr

/-- The initial values of the `useState` cells of `App`. -/
def App.init : App := { resumeData := none, sessionId := none }

/-- The callback `handleResumeParsed` of `App`. -/
def handleResumeParsed (_a : App) (data : Option Profile) (session : String) : App :=
  { resumeData := data, sessionId := some session }

/-- The `onReset` prop that `App` passes to `JobChatbot`. -/
def onReset (_a : App) : App := { resumeData := none, sessionId := none }

/-! ## The mounted application

`App` renders `ResumeParser` while `resumeData` is falsy and `JobChatbot`
otherwise, so exactly one of the two is mounted. A component that is mounted
anew starts from its initial `useState` values; the continuation of an
`async` handler outlives the instance that started it, its `setState` calls
then being dropped while its requests and its call of `onResumeParsed` still
happen. -/

/-- The `async` function a pending request belongs to. -/
inductive Caller where
  | handleUpload
  | initChat
  | handleSendMessage
  deriving DecidableEq, Repr

/-- A request in flight: the component instance whose handler awaits it, the
handler, and the request. -/
structure Pending where
  inst : Nat
  caller : Caller
  request : Request
  deriving DecidableEq, Repr

/-- The whole client: the state of `App`, of the mounted child (the other
child's field is dead), the number of the mounted child instance, the
requests in flight, and three logs: every request sent, every call of
`onResumeParsed`, and every session identifier whose `/create-agent`
request has completed successfully. -/
structure Client where
  app : App
  resumeParser : ResumeParser
  jobChatbot : JobChatbot
  inst : Nat
  pending : List Pending
  sent : List Request
  handoffs : List (Option Profile × String)
  created : List String
  deriving DecidableEq, Repr

/-- The application right after it is first rendered. -/
def Client.init : Client :=
  { app := App.init, resumeParser := ResumeParser.init, jobChatbot := JobChatbot.init,
    inst := 0, pending := [], sent := [], handoffs := [], created := [] }

/-- Whether `JobChatbot` is the mounted child (`!resumeData ? ... : ...`). -/
def Client.chatMounted (s : Client) : Bool := s.app.resumeData.isSome

/-- The body of `useEffect(..., [sessionId])` of `JobChatbot` up to the
`await` of `initChat`. -/
def runEffect (s : Client) : Client :=
  if jsTruthy s.app.sessionId then
    let b := initChatBegin s.jobChatbot s.app.sessionId
    { s with jobChatbot := b.1,
             pending := s.pending ++ [{ inst := s.inst, caller := Caller.initChat, request := b.2 }],
             sent := s.sent ++ [b.2] }
  else s

/-- Re-render after the state of `App` has become `a`: the child is swapped
when the truthiness of `resumeData` changes, and the effect of `JobChatbot`
runs when it mounts and whenever its `sessionId` prop has changed. -/
def render (s : Client) (a : App) : Client :=
  if a.resumeData.isSome then
    if s.app.resumeData.isSome then
      if a.sessionId ≠ s.app.sessionId then runEffect { s with app := a }
      else { s with app := a }
    else
      runEffect { s with app := a, jobChatbot := JobChatbot.init, inst := s.inst + 1 }
  else
    if s.app.resumeData.isSome then
      { s with app := a, resumeParser := ResumeParser.init, inst := s.inst + 1 }
    else { s with app := a }

/-- A call of the `onResumeParsed` prop, which is `handleResumeParsed` of `App`. -/
def handoff (s : Client) (data : Option Profile) (sessionId : String) : Client :=
  render { s with handoffs := s.handoffs ++ [(data, sessionId)] }
    (handleResumeParsed s.app data sessionId)

/-- What can happen to the client: the user acts on a control that is
rendered and enabled, or a request in flight (the `i`-th) completes. -/
inductive Event where
  | selectFile (selectedFile : Option File)
  | clickParse
  | clickReset
  | clickStart (now : Nat)
  | typeInput (value : String)
  | send (now : Nat)
  | quickAction (action : String)
  | toggleJob (index : Nat)
  | uploadNew
  | parseResumeDone (i : Nat) (reply : Except AxiosError ParseResponse) (now : Nat) (rnd : String)
  | createAgentDone (i : Nat) (reply : Except AxiosError Unit)
  | chatDone (i : Nat) (reply : Except AxiosError ChatResponse) (now : Nat)

/-- The handler of the 'Parse Resume' button (enabled unless `!file || loading`). -/
def stepClickParse (s : Client) : Client :=
  if s.chatMounted || s.resumeParser.parsedData.isSome || s.resumeParser.file.isNone
      || s.resumeParser.loading then s
  else
    match handleUploadBegin s.resumeParser with
    | (p, none) => { s with resumeParser := p }
    | (p, some req) =>
      { s with resumeParser := p,
               pending := s.pending ++ [{ inst := s.inst, caller := Caller.handleUpload, request := req }],
               sent := s.sent ++ [req] }

/-- The handler of the 'Start Job Hunting' button. -/
def stepClickStart (s : Client) (now : Nat) : Client :=
  if s.chatMounted then s
  else
    match startJobHunting s.resumeParser now with
    | none => s
    | some (d, sid) => handoff s d sid

/-- A call of `handleSendMessage` (send button or Enter key). -/
def stepSend (s : Client) (now : Nat) : Client :=
  if s.chatMounted then
    match handleSendMessageBegin s.jobChatbot s.app.sessionId now with
    | none => s
    | some (c, req) =>
      { s with jobChatbot := c,
               pending := s.pending ++ [{ inst := s.inst, caller := Caller.handleSendMessage, request := req }],
               sent := s.sent ++ [req] }
  else s

/-- The reply of `/parse-resume` reaches the `handleUpload` that awaits it. -/
def stepParseResumeDone (s : Client) (i : Nat) (reply : Except AxiosError ParseResponse)
    (now : Nat) (rnd : String) : Client :=
  match s.pending.get? i with
  | some { inst := k, caller := Caller.handleUpload, request := Request.parseResume _ } =>
    let r := handleUploadParsed s.resumeParser now rnd reply
    let live := k = s.inst ∧ ¬ s.chatMounted
    let s1 := { s with pending := s.pending.eraseIdx i,
                       resumeParser := if live then r.1 else s.resumeParser }
    match r.2 with
    | none => s1
    | some (sessionId, data) =>
      let req := Request.createAgent sessionId data
      { s1 with pending := s1.pending ++ [{ inst := k, caller := Caller.handleUpload, request := req }],
                sent := s1.sent ++ [req] }
  | _ => s

/-- The reply of `/create-agent/{sessionId}` reaches the `handleUpload` that
awaits it. -/
def stepCreateAgentDone (s : Client) (i : Nat) (reply : Except AxiosError Unit) : Client :=
  match s.pending.get? i with
  | some { inst := k, caller := Caller.handleUpload, request := Request.createAgent sessionId data } =>
    let r := handleUploadCreated s.resumeParser sessionId data reply
    let live := k = s.inst ∧ ¬ s.chatMounted
    let s1 := { s with pending := s.pending.eraseIdx i,
                       resumeParser := if live then r.1 else s.resumeParser,
                       created := match reply with
                         | .ok _ => s.created ++ [sessionId]
                         | .error _ => s.created }
    match r.2 with
    | none => s1
    | some (d, sid) => handoff s1 d sid
  | _ => s

/-- The reply of `/chat/{sessionId}` reaches the `initChat` or the
`handleSendMessage` that awaits it. -/
def stepChatDone (s : Client) (i : Nat) (reply : Except AxiosError ChatResponse) (now : Nat) :
    Client :=
  match s.pending.get? i with
  | some { inst := k, caller := Caller.initChat, request := Request.chat _ _ } =>
    let live := k = s.inst ∧ s.chatMounted
    { s with pending := s.pending.eraseIdx i,
             jobChatbot := if live then initChatEnd s.jobChatbot now reply else s.jobChatbot }
  | some { inst := k, caller := Caller.handleSendMessage, request := Request.chat _ _ } =>
    let live := k = s.inst ∧ s.chatMounted
    { s with pending := s.pending.eraseIdx i,
             jobChatbot := if live then handleSendMessageEnd s.jobChatbot now reply
                           else s.jobChatbot }
  | _ => s

/-- One transition of the client. -/
def step (s : Client) : Event → Client
  | .selectFile f =>
    if s.chatMounted || s.resumeParser.parsedData.isSome then s
    else { s with resumeParser := handleFileChange s.resumeParser f }
  | .clickParse => stepClickParse s
  | .clickReset =>
    if s.chatMounted || s.resumeParser.parsedData.isSome || s.resumeParser.file.isNone then s
    else { s with resumeParser := handleReset s.resumeParser }
  | .clickStart now => stepClickStart s now
  | .typeInput value =>
    if s.chatMounted && !s.jobChatbot.loading then
      { s with jobChatbot := { s.jobChatbot with inputMessage := value } }
    else s
  | .send now => stepSend s now
  | .quickAction action =>
    if s.chatMounted then { s with jobChatbot := handleQuickAction s.jobChatbot action } else s
  | .toggleJob index =>
    if s.chatMounted then
      { s with jobChatbot :=
          { s.jobChatbot with
            expandedJob := if s.jobChatbot.expandedJob = some index then none else some index } }
    else s
  | .uploadNew => if s.chatMounted then render s (onReset s.app) else s
  | .parseResumeDone i reply now rnd => stepParseResumeDone s i reply now rnd
  | .createAgentDone i reply => stepCreateAgentDone s i reply
  | .chatDone i reply now => stepChatDone s i reply now

/-- The client after a sequence of events, from the first render. -/
def run (events : List Event) : Client := events.foldl step Client.init

/-- The requests to `/chat/sessionId` that are in flight. -/
def outstandingChat (s : Client) (sessionId : String) : List Pending :=
  s.pending.filter (fun p => match p.request with
    | Request.chat sid _ => sid = sessionId
    | _ => false)

/-! ## Definitions used in the statements -/

/-- The text of the assistant message that ends a turn. -/
def replyText : Except AxiosError ChatResponse → String
  | .ok response => response.message
  | .error _ => "Sorry, I encountered an error. Please try again."

/-- The `jobSuggestions` field of the assistant message that ends a turn. -/
def replyJobs : Except AxiosError ChatResponse → List Job
  | .ok response => response.job_suggestions.getD []
  | .error _ => []

/-- A job posting used in the examples. -/
def sampleJob : Job :=
  { title := "Data Analyst", company := "Acme", location := "Remote", match_score := 3 / 4,
    posted_date := none, description := "SQL and Python", salary := none,
    url := "https://example.org/1" }

/-- Another job posting used in the examples. -/
def otherJob : Job :=
  { title := "Data Engineer", company := "Initech", location := "Berlin", match_score := 1 / 2,
    posted_date := some "2024-01-01", description := "Pipelines", salary := some "80k",
    url := "https://example.org/2" }

/-- The stored file, if any, and every file posted to `/parse-resume` so far
are of an accepted type. -/
def FileInv (s : Client) : Prop :=
  (∀ f, s.resumeParser.file = some f → acceptedType f.type = true) ∧
  (∀ f, Request.parseResume f ∈ s.sent → acceptedType f.type = true)

/-- A resume file used in the examples. -/
def sampleFile : File := { name := "cv.pdf", size := 2048, type := "application/pdf" }

/-- A parsed profile used in the examples. -/
def sampleProfile : Profile :=
  { name := some "Ada", email := none, phone := none, skills := ["python", "sql"],
    experience := [{ title := "Data Analyst", company := "Acme", start_date := "2020-01",
                     end_date := none, description := none }],
    education := [] }

/-- The user selects a PDF and presses 'Parse Resume'; `/parse-resume`
succeeds at time 1000; `/create-agent/session_1000_abc` fails; the page shows
the parsed resume and the user presses 'Start Job Hunting' at time 2000. -/
def startAfterFailedCreate : List Event :=
  [ Event.selectFile (some sampleFile),
    Event.clickParse,
    Event.parseResumeDone 0 (.ok { success := true, data := some sampleProfile, message := none })
      1000 "abc",
    Event.createAgentDone 0 (.error { detail := none }),
    Event.clickStart 2000 ]

/-- The user presses 'Start Job Hunting' at time 2000 while
`/create-agent/session_1000_abc` is still in flight, so `JobChatbot` mounts
with `session_2000`; then `/create-agent` succeeds and `handleUpload` calls
`onResumeParsed` with `session_1000_abc`, which changes the `sessionId` prop
of the mounted `JobChatbot` and runs `initChat` a second time; then the
first `initChat` request fails, which sets `loading` to false; the user
types 'hi'. -/
def secondHandoffWhileChatting : List Event :=
  [ Event.selectFile (some sampleFile),
    Event.clickParse,
    Event.parseResumeDone 0 (.ok { success := true, data := some sampleProfile, message := none })
      1000 "abc",
    Event.clickStart 2000,
    Event.createAgentDone 0 (.ok ()),
    Event.chatDone 0 (.error { detail := none }) 2500,
    Event.typeInput "hi" ]

/-- Whether a request goes to `/chat/{sessionId}`. -/
def isChat : Request → Bool
  | Request.chat _ _ => true
  | _ => false

/-- Whether a request in flight is awaited by `handleUpload`. -/
def isUpload (p : Pending) : Bool := p.caller = Caller.handleUpload

/-- Whether an event is a press of the 'Start Job Hunting' button. -/
def Event.isClickStart : Event → Bool
  | Event.clickStart _ => true
  | _ => false

/-- The requests to `/chat` in flight that the mounted `JobChatbot` instance
has sent. -/
def liveChat (s : Client) : List Pending :=
  s.pending.filter (fun p => p.inst = s.inst && isChat p.request)

/-- The invariant behind single flight: requests in flight belong to the
mounted instance or to an earlier one; while `JobChatbot` is mounted no
`handleUpload` is under way and the mounted instance awaits one request
exactly when `loading` is true; while `ResumeParser` is mounted the same
holds for `handleUpload` and its `loading`. -/
def SingleFlight (s : Client) : Prop :=
  (∀ p ∈ s.pending, p.inst ≤ s.inst) ∧
  (∀ p ∈ s.pending, (isChat p.request = true ↔ isUpload p = false)) ∧
  (s.chatMounted = true →
    (∀ p ∈ s.pending, isUpload p = false) ∧
    s.pending.countP (fun p => p.inst = s.inst) = if s.jobChatbot.loading then 1 else 0) ∧
  (s.chatMounted = false →
    (∀ p ∈ s.pending, isUpload p = false → p.inst < s.inst) ∧
    (∀ p ∈ s.pending, isUpload p = true → p.inst = s.inst) ∧
    s.pending.countP isUpload = if s.resumeParser.loading then 1 else 0)

/-- The invariant behind the hand-off: every request in flight has been
sent, and every call of `onResumeParsed` carries a session identifier whose
`/create-agent` request, with the profile handed over, was sent and has
completed successfully. -/
def HandoffInv (s : Client) : Prop :=
  (∀ p ∈ s.pending, p.request ∈ s.sent) ∧
  (∀ h ∈ s.handoffs, h.2 ∈ s.created ∧ Request.createAgent h.2 h.1 ∈ s.sent)

/-- `s.substring(0, n)`. -/
def jsSubstring0 (s : String) (n : Nat) : String := String.mk (s.data.take n)

/-- The text of the Session panel of `JobChatbot`,
`{sessionId?.substring(0, 8)}...`; an undefined value renders as nothing. -/
def sessionLabel (sessionId : Option String) : String :=
  match sessionId with
  | some s => jsSubstring0 s 8 ++ "..."
  | none => "..."

/-- A session identifier that starts with 'session_'. -/
def SessionForm (sessionId : String) : Prop := sessionId.data.take 8 = "session_".data

/-- Every `/create-agent` request in flight is for an identifier that starts
with 'session_', and so is the `sessionId` prop while `JobChatbot` is
mounted. -/
def SessionInv (s : Client) : Prop :=
  (∀ p ∈ s.pending, ∀ sid d, p.request = Request.createAgent sid d → SessionForm sid) ∧
  (∀ h ∈ s.handoffs, SessionForm h.2) ∧
  (s.chatMounted = true → ∃ sid, s.app.sessionId = some sid ∧ SessionForm sid)

/-- `Math.round(x)` on an exact rational: the nearest integer, a half going
up. -/
def mathRound (x : ℚ) : ℤ := ⌊x + 1 / 2⌋

/-- The `label` of the match `Chip`: `Math.round(job.match_score * 100)`
followed by '% match'. -/
def chipLabel (job : Job) : String :=
  toString (mathRound (job.match_score * 100)) ++ "% match"

/-- The `color` of the match `Chip`. -/
def chipColor (job : Job) : String :=
  if job.match_score > 0.7 then "success"
  else if job.match_score > 0.4 then "warning"
  else "default"

/-- The order default < warning < success of the chip colours. -/
def colorRank (color : String) : Nat :=
  if color = "success" then 2 else if color = "warning" then 1 else 0

/-- Whether the characters `needle` stand at the head of `hay`. -/
def startsWithChars : List Char → List Char → Bool
  | _, [] => true
  | [], _ :: _ => false
  | a :: hay, b :: needle => a = b && startsWithChars hay needle

/-- Whether the characters `needle` occur in `hay` as a contiguous run. -/
def includesChars : List Char → List Char → Bool
  | [], needle => needle.isEmpty
  | a :: hay, needle => startsWithChars (a :: hay) needle || includesChars hay needle

/-- `hay.includes(needle)`: substring test. -/
def jsIncludes (hay needle : String) : Bool := includesChars hay.data needle.data

/-- `s.toLowerCase()` on the letters A to Z; other characters are kept. -/
def jsToLowerCase (s : String) : String := String.mk (s.data.map Char.toLower)

/-- Modelled from the spec: the intents of the IntentClassifier (section 4.3),
which is not part of the client sources. -/
inductive Intent where
  | GREETING
  | SEARCH_JOBS
  | RESUME_FEEDBACK
  | CAREER_ADVICE
  | FREEFORM
  deriving DecidableEq, Repr

/-- Modelled from the spec: the keyword rules of the IntentClassifier (section
4.3), which is not part of the client sources: 'job', 'opportunity' or
'search' give SEARCH_JOBS, 'feedback' or 'review resume' give
RESUME_FEEDBACK, 'advice' or 'career' give CAREER_ADVICE. -/
def keywordRules : List (Intent × List String) :=
  [ (Intent.SEARCH_JOBS, ["job", "opportunity", "search"]),
    (Intent.RESUME_FEEDBACK, ["feedback", "review resume"]),
    (Intent.CAREER_ADVICE, ["advice", "career"]) ]

/-- Modelled from the spec: a keyword rule applies to an utterance when one of
its keywords occurs in it, compared by substring without regard to case. -/
def ruleApplies (utterance : String) (rule : Intent × List String) : Bool :=
  rule.2.any (fun keyword => jsIncludes (jsToLowerCase utterance) keyword)

/-- Modelled from the spec: classification by the keyword rules tried in the
order of `rules`, the first rule that applies giving the intent and FREEFORM
being the fallback. The GREETING rule of the spec, which looks at the
conversation history, comes after the keyword rules and is not modelled. -/
def classifyWith (rules : List (Intent × List String)) (utterance : String) : Intent :=
  match rules.find? (ruleApplies utterance) with
  | some rule => rule.1
  | none => Intent.FREEFORM

/-- One chat turn as the environment supplies it: the text in the input field
when `handleSendMessage` is called, `Date.now()` when the user message is
built, the reply of `/chat`, and `Date.now()` when the reply is handled. -/
structure Turn where
  input : String
  sendAt : Nat
  reply : Except AxiosError ChatResponse
  replyAt : Nat

/-- The user types `t.input` and `handleSendMessage` runs to completion. -/
def chatTurn (sessionId : Option String) (c : JobChatbot) (t : Turn) : JobChatbot :=
  (handleSendMessage { c with inputMessage := t.input } sessionId t.sendAt t.reply t.replyAt).1

/-- A freshly mounted `JobChatbot` runs `initChat`, whose reply is handled at
`greetAt`, and then the turns one after the other. -/
def chatSession (sessionId : Option String) (greetAt : Nat)
    (greeting : Except AxiosError ChatResponse) (turns : List Turn) : JobChatbot :=
  turns.foldl (chatTurn sessionId) (initChat JobChatbot.init sessionId greetAt greeting).1

/-- The values `Date.now()` returns during a session, in the order they are
read. -/
def clockReadings (greetAt : Nat) (turns : List Turn) : List Nat :=
  greetAt :: turns.flatMap (fun t => [t.sendAt, t.replyAt])

/-- A clock that never goes back: each reading is at least the one before. -/
def nonDecreasing : List Nat → Bool
  | [] => true
  | [_] => true
  | a :: b :: rest => decide (a ≤ b) && nonDecreasing (b :: rest)

/-- The ids of the transcript, which are the keys of the rendered list. -/
def messageIds (c : JobChatbot) : List Nat := c.messages.map (fun m => m.id)

/-- A clock that has moved on by at least one millisecond since the reading
behind the latest id (`latest` is the largest id given out so far) whenever a
turn is sent. -/
def SpacedFrom (latest : Nat) : List Turn → Prop
  | [] => True
  | t :: turns => latest < t.sendAt ∧ t.sendAt ≤ t.replyAt ∧ SpacedFrom (t.replyAt + 1) turns

/-- The greeting arrives at 1000; the user sends 'find jobs' at 5000 and the
reply is handled at 6000, which gives the assistant message the id 6001; the
user sends 'thanks' at 6001. -/
def turnsOneMillisecondApart : List Turn :=
  [ { input := "find jobs", sendAt := 5000,
      reply := .ok { message := "Here are some jobs", job_suggestions := some [] },
      replyAt := 6000 },
    { input := "thanks", sendAt := 6001,
      reply := .ok { message := "You are welcome", job_suggestions := none },
      replyAt := 7000 } ]

/-- An action of the user on a control other than 'Upload New Resume': no
reply is handled by such an event and the mounted child stays mounted. -/
def Event.isUserAction : Event → Bool
  | Event.selectFile _ => true
  | Event.clickParse => true
  | Event.clickReset => true
  | Event.clickStart _ => true
  | Event.typeInput _ => true
  | Event.send _ => true
  | Event.quickAction _ => true
  | Event.toggleJob _ => true
  | Event.uploadNew => false
  | Event.parseResumeDone _ _ _ _ => false
  | Event.createAgentDone _ _ => false
  | Event.chatDone _ _ _ => false

/-- The client after a chat turn sent from state `s`: `handleSendMessage` is
called at `now`, the events `between` happen while the request is in flight,
and the reply of the request, which the call has put last in the list of
requests in flight, is handled at `now2`. -/
def turnFrom (s : Client) (now : Nat) (between : List Event)
    (reply : Except AxiosError ChatResponse) (now2 : Nat) : Client :=
  step (between.foldl step (step s (Event.send now)))
    (Event.chatDone s.pending.length reply now2)

/-- After `secondHandoffWhileChatting` the user sends 'hi' at 3000; the reply
of the second `initChat` is handled at 3500; the reply of the user's turn is
handled at 4000. -/
def replyOfSecondInitChatDuringTurn : List Event :=
  secondHandoffWhileChatting ++
  [ Event.send 3000,
    Event.chatDone 0 (.ok { message := "Welcome", job_suggestions := none }) 3500,
    Event.chatDone 0 (.ok { message := "answer", job_suggestions := none }) 4000 ]

/-- An upload that goes through, a greeting that brings `[sampleJob]`, and the
user typing 'hi': a state in which the client shows a job list and the send
guard is open. -/
def greetedWithSuggestions : List Event :=
  [ Event.selectFile (some sampleFile),
    Event.clickParse,
    Event.parseResumeDone 0 (.ok { success := true, data := some sampleProfile, message := none })
      1000 "abc",
    Event.createAgentDone 0 (.ok ()),
    Event.chatDone 0 (.ok { message := "Hello", job_suggestions := some [sampleJob] }) 1500,
    Event.typeInput "hi" ]

/-- After `secondHandoffWhileChatting` the user sends 'hi' at 3000; the reply
of the second `initChat`, which carries `[otherJob]`, is handled at 3500; the
reply of the user's turn, with a zero-length `job_suggestions`, is handled at
4000. -/
def suggestionsOfSecondInitChatDuringTurn : List Event :=
  secondHandoffWhileChatting ++
  [ Event.send 3000,
    Event.chatDone 0 (.ok { message := "Welcome", job_suggestions := some [otherJob] }) 3500,
    Event.chatDone 0 (.ok { message := "none found", job_suggestions := some [] }) 4000 ]

/-- What a user action leaves alone while `JobChatbot` is mounted and a request
of it is in flight. -/
def SameTurn (s t : Client) : Prop :=
  t.app = s.app ∧ t.inst = s.inst ∧ t.pending = s.pending ∧
  t.jobChatbot.messages = s.jobChatbot.messages ∧
  t.jobChatbot.jobSuggestions = s.jobChatbot.jobSuggestions ∧
  t.jobChatbot.loading = s.jobChatbot.loading
/-- Over the events, the mounted child instance stays mounted and its
`loading` stays true: the request it awaits is still in flight. -/
def StillWaiting (s : Client) : List Event → Prop
  | [] => True
  | e :: es =>
    (step s e).inst = s.inst ∧ (step s e).jobChatbot.loading = true ∧
      StillWaiting (step s e) es

/-! # Theorems -/

/-! ## The send guard -/

theorem dropWhile_all_iff (p : Char → Bool) (l : List Char) :
    (∀ x ∈ l.dropWhile p, p x = true) ↔ ∀ x ∈ l, p x = true := by
  induction l with
  | nil => simp
  | cons a t ih =>
    by_cases h : p a = true
    · simp [List.dropWhile_cons, h, ih]
    · simp [List.dropWhile_cons, h]

/-- The trimmed string is empty exactly when every character is white space. -/
theorem jsTrim_eq_empty_iff (s : String) :
    jsTrim s = "" ↔ ∀ ch ∈ s.data, jsIsWhiteSpace ch = true := by
  unfold jsTrim
  rw [show ("" : String) = String.mk [] from rfl, String.ext_iff]
  show ((s.data.dropWhile jsIsWhiteSpace).reverse.dropWhile jsIsWhiteSpace).reverse = [] ↔ _
  rw [List.reverse_eq_nil_iff, List.dropWhile_eq_nil_iff]
  constructor
  · intro h
    exact (dropWhile_all_iff _ _).1 (fun x hx => h x (List.mem_reverse.2 hx))
  · intro h x hx
    exact (dropWhile_all_iff _ _).2 h x (List.mem_reverse.1 hx)

/-- The guard of `handleSendMessage` lets through exactly the inputs that are
not made of white space only, while `loading` is false. -/
theorem sendBlocked_eq_false_iff (c : JobChatbot) :
    sendBlocked c = false ↔
      (¬ ∀ ch ∈ c.inputMessage.data, jsIsWhiteSpace ch = true) ∧ c.loading = false := by
  unfold sendBlocked
  rw [Bool.or_eq_false_iff, decide_eq_false_iff_not, jsTrim_eq_empty_iff]

/-! ## `handleSendMessage` -/

/-- What `handleSendMessage` returns once the guard has let the call through. -/
theorem handleSendMessage_of_open (c : JobChatbot) (sessionId : Option String) (now now2 : Nat)
    (reply : Except AxiosError ChatResponse) (h : sendBlocked c = false) :
    handleSendMessage c sessionId now reply now2 =
      (handleSendMessageEnd
        { c with
          messages := c.messages ++
            [{ id := now, role := "user", content := c.inputMessage, jobSuggestions := none }],
          inputMessage := "", loading := true } now2 reply,
       [Request.chat (jsTemplate sessionId) { role := "user", content := c.inputMessage }]) := by
  simp [handleSendMessage, handleSendMessageBegin, h]

theorem handleSendMessageEnd_messages (c : JobChatbot) (now : Nat)
    (reply : Except AxiosError ChatResponse) :
    (handleSendMessageEnd c now reply).messages =
      c.messages ++ [{ id := now + 1, role := "assistant", content := replyText reply,
                       jobSuggestions := some (replyJobs reply) }] := by
  rcases reply with e | response
  · rfl
  · cases hj : response.job_suggestions with
    | none => simp [handleSendMessageEnd, hj, replyText, replyJobs]
    | some js =>
      by_cases hl : js.length > 0 <;> simp [handleSendMessageEnd, hj, hl, replyText, replyJobs]

theorem handleSendMessageEnd_loading (c : JobChatbot) (now : Nat)
    (reply : Except AxiosError ChatResponse) :
    (handleSendMessageEnd c now reply).loading = false := by
  rcases reply with e | response
  · rfl
  · cases hj : response.job_suggestions with
    | none => simp [handleSendMessageEnd, hj]
    | some js => by_cases hl : js.length > 0 <;> simp [handleSendMessageEnd, hj, hl]

theorem handleSendMessageEnd_inputMessage (c : JobChatbot) (now : Nat)
    (reply : Except AxiosError ChatResponse) :
    (handleSendMessageEnd c now reply).inputMessage = c.inputMessage := by
  rcases reply with e | response
  · rfl
  · cases hj : response.job_suggestions with
    | none => simp [handleSendMessageEnd, hj]
    | some js => by_cases hl : js.length > 0 <;> simp [handleSendMessageEnd, hj, hl]

/-- The job list after the second half of `handleSendMessage`: replaced by a
non-empty `job_suggestions` of a successful reply, kept otherwise. -/
theorem handleSendMessageEnd_jobSuggestions (c : JobChatbot) (now : Nat)
    (reply : Except AxiosError ChatResponse) :
    (handleSendMessageEnd c now reply).jobSuggestions =
      match reply with
      | .ok response =>
        (match response.job_suggestions with
         | some js => if js.length > 0 then js else c.jobSuggestions
         | none => c.jobSuggestions)
      | .error _ => c.jobSuggestions := by
  rcases reply with e | response
  · rfl
  · cases hj : response.job_suggestions with
    | none => simp [handleSendMessageEnd, hj]
    | some js => by_cases hl : js.length > 0 <;> simp [handleSendMessageEnd, hj, hl]

/-- C3: for every input `c.inputMessage` that passes the send guard,
`handleSendMessage` posts to `/chat/{sessionId}` exactly the body
`{role: 'user', content: c.inputMessage}` with the content as typed, not
trimmed; the message it appends to the previous transcript, before the reply, has role
`'user'` and that same content; and the input field is reset to the empty
string. -/
theorem C3_send_posts_input_untrimmed (c : JobChatbot) (sessionId : String)
    (now now2 : Nat) (reply : Except AxiosError ChatResponse)
    (hinput : ¬ ∀ ch ∈ c.inputMessage.data, jsIsWhiteSpace ch = true)
    (hloading : c.loading = false) :
    (handleSendMessage c (some sessionId) now reply now2).2 =
        [Request.chat sessionId { role := "user", content := c.inputMessage }] ∧
      (∃ u a : Message,
        (handleSendMessage c (some sessionId) now reply now2).1.messages = c.messages ++ [u, a] ∧
        u.role = "user" ∧ u.content = c.inputMessage) ∧
      (handleSendMessage c (some sessionId) now reply now2).1.inputMessage = "" := by
  have h := (sendBlocked_eq_false_iff c).2 ⟨hinput, hloading⟩
  rw [handleSendMessage_of_open c (some sessionId) now now2 reply h]
  refine ⟨rfl, ⟨⟨now, "user", c.inputMessage, none⟩,
    ⟨now2 + 1, "assistant", replyText reply, some (replyJobs reply)⟩, ?_, rfl, rfl⟩, ?_⟩
  · simp [handleSendMessageEnd_messages]
  · rw [handleSendMessageEnd_inputMessage]

/-- An input with surrounding blanks is posted with its blanks. -/
theorem C3_send_posts_input_untrimmed_witness :
    (handleSendMessage { JobChatbot.init with inputMessage := " hi " } (some "session_1") 5
        (.error { detail := none }) 9).2 =
      [Request.chat "session_1" { role := "user", content := " hi " }] :=
  (C3_send_posts_input_untrimmed { JobChatbot.init with inputMessage := " hi " } "session_1" 5 9
    (.error { detail := none }) (by decide) rfl).1

/-! ## `handleQuickAction` -/

/-- C4: `handleQuickAction` sets the input to exactly
'Find me job opportunities matching my skills' for `'search_jobs'`,
'Give me feedback on my resume' for `'resume_feedback'` and
'What career advice do you have for me?' for `'career_advice'`; for every
other action the input is left unchanged; and for every action the
transcript is unchanged and no request is sent (neither the log of requests
nor the requests in flight change). -/
theorem C4_quick_action_fills_input (c : JobChatbot) (s : Client) (action : String) :
    (handleQuickAction c "search_jobs").inputMessage =
        "Find me job opportunities matching my skills" ∧
      (handleQuickAction c "resume_feedback").inputMessage = "Give me feedback on my resume" ∧
      (handleQuickAction c "career_advice").inputMessage =
        "What career advice do you have for me?" ∧
      (action ≠ "search_jobs" → action ≠ "resume_feedback" → action ≠ "career_advice" →
        (handleQuickAction c action).inputMessage = c.inputMessage) ∧
      (handleQuickAction c action).messages = c.messages ∧
      (step s (Event.quickAction action)).jobChatbot.messages = s.jobChatbot.messages ∧
      (step s (Event.quickAction action)).sent = s.sent ∧
      (step s (Event.quickAction action)).pending = s.pending := by
  have hm : (handleQuickAction c action).messages = c.messages := by
    unfold handleQuickAction
    split_ifs <;> rfl
  have hm2 : (handleQuickAction s.jobChatbot action).messages = s.jobChatbot.messages := by
    unfold handleQuickAction
    split_ifs <;> rfl
  refine ⟨rfl, rfl, rfl, ?_, hm, ?_, ?_, ?_⟩
  · intro h1 h2 h3
    simp [handleQuickAction, h1, h2, h3]
  · by_cases h : s.chatMounted = true <;> simp [step, h, hm2]
  · by_cases h : s.chatMounted = true <;> simp [step, h]
  · by_cases h : s.chatMounted = true <;> simp [step, h]

/-- An action that is none of the three leaves the input as it is. -/
theorem C4_quick_action_fills_input_witness :
    "other" ≠ "search_jobs" ∧
      (handleQuickAction { JobChatbot.init with inputMessage := "draft" } "other").inputMessage
        = "draft" :=
  ⟨by decide,
   (C4_quick_action_fills_input { JobChatbot.init with inputMessage := "draft" } Client.init
      "other").2.2.2.1 (by decide) (by decide) (by decide)⟩

/-! ## The job list -/

/-- C5: after a successful chat turn whose response carries a non-empty
`job_suggestions`, the job list the client holds is exactly that sequence,
the same elements in the same order, whatever list it held before. -/
theorem C5_nonempty_suggestions_replace_list (c : JobChatbot) (sessionId : Option String)
    (now now2 : Nat) (response : ChatResponse) (js : List Job)
    (hopen : sendBlocked c = false)
    (hjs : response.job_suggestions = some js) (hne : js ≠ []) :
    (handleSendMessage c sessionId now (.ok response) now2).1.jobSuggestions = js := by
  rw [handleSendMessage_of_open c sessionId now now2 _ hopen, handleSendMessageEnd_jobSuggestions]
  have hl : js.length > 0 := List.length_pos.2 hne
  simp [hjs, hl]

/-- A held list is dropped for the list of the reply. -/
theorem C5_nonempty_suggestions_replace_list_witness :
    (handleSendMessage { JobChatbot.init with inputMessage := "find jobs",
                                              jobSuggestions := [sampleJob] }
      (some "session_1") 5 (.ok { message := "ok", job_suggestions := some [otherJob, sampleJob] })
      9).1.jobSuggestions = [otherJob, sampleJob] :=
  C5_nonempty_suggestions_replace_list _ (some "session_1") 5 9
    { message := "ok", job_suggestions := some [otherJob, sampleJob] } [otherJob, sampleJob]
    (by decide) rfl (by simp)

/-! ## `initChat` -/

/-- C10: when the initial chat request of a session succeeds, the client has
posted exactly `{role: 'user', content: 'hello'}` to `/chat/{sessionId}` and
the transcript is exactly one message, of role `'assistant'`, whose content
is `response.message`, so no user turn 'hello' is in the transcript; when
that request fails, the transcript is left as it was, which is empty for the
freshly mounted component, and `loading` is false. -/
theorem C10_init_chat_greeting (c : JobChatbot) (sessionId : String) (now : Nat)
    (response : ChatResponse) (err : AxiosError) (hsession : sessionId ≠ "") :
    ((initChat c (some sessionId) now (.ok response)).2 =
        [Request.chat sessionId { role := "user", content := "hello" }] ∧
      ∃ m : Message, (initChat c (some sessionId) now (.ok response)).1.messages = [m] ∧
        m.role = "assistant" ∧ m.content = response.message) ∧
    ((initChat c (some sessionId) now (.error err)).1.messages = c.messages ∧
      (initChat JobChatbot.init (some sessionId) now (.error err)).1.messages = [] ∧
      (initChat c (some sessionId) now (.error err)).1.loading = false) := by
  have ht : jsTruthy (some sessionId) = true := by simp [jsTruthy, hsession]
  refine ⟨⟨?_, ⟨now, "assistant", response.message,
    some (response.job_suggestions.getD [])⟩, ?_, rfl, rfl⟩, ?_, ?_, ?_⟩
  · simp [initChat, ht, initChatBegin, jsTemplate]
  · cases hj : response.job_suggestions <;> simp [initChat, ht, initChatBegin, initChatEnd, hj]
  · simp [initChat, ht, initChatBegin, initChatEnd]
  · simp [initChat, ht, initChatBegin, initChatEnd, JobChatbot.init]
  · simp [initChat, ht, initChatBegin, initChatEnd]

/-- The greeting of a fresh session. -/
theorem C10_init_chat_greeting_witness :
    "session_1" ≠ "" ∧
      (initChat JobChatbot.init (some "session_1") 7
        (.ok { message := "Welcome", job_suggestions := none })).1.messages =
        [{ id := 7, role := "assistant", content := "Welcome", jobSuggestions := some [] }] ∧
      (initChat JobChatbot.init (some "session_1") 7 (.error { detail := none })).1.loading
        = false :=
  ⟨by decide, by rfl,
   (C10_init_chat_greeting JobChatbot.init "session_1" 7
      { message := "Welcome", job_suggestions := none } { detail := none } (by decide)).2.2.2⟩

/-! ## `handleUpload` -/

/-- C6: for every `/parse-resume` response whose `success` field is false,
`handleUpload` sets the error to the message of the response when that is a
non-empty string and to 'Failed to parse resume' otherwise, sends no
`/create-agent` request and does not call `onResumeParsed` (its only effect
is the `/parse-resume` request itself), leaves `parsedData` unchanged, and
ends with `loading` false. -/
theorem C6_parse_failure_reported (p : ResumeParser) (f : File) (response : ParseResponse)
    (now : Nat) (rnd : String) (createReply : Except AxiosError Unit)
    (hfile : p.file = some f) (hfail : response.success = false) :
    (handleUpload p (.ok response) now rnd createReply).1.error =
        some (match response.message with
          | some m => if m ≠ "" then m else "Failed to parse resume"
          | none => "Failed to parse resume") ∧
      (handleUpload p (.ok response) now rnd createReply).2 =
        [Effect.request (Request.parseResume f)] ∧
      (handleUpload p (.ok response) now rnd createReply).1.parsedData = p.parsedData ∧
      (handleUpload p (.ok response) now rnd createReply).1.loading = false := by
  have h : handleUpload p (.ok response) now rnd createReply =
      ({ p with error := some (jsOr response.message "Failed to parse resume"),
                loading := false }, [Effect.request (Request.parseResume f)]) := by
    simp [handleUpload, handleUploadBegin, hfile, handleUploadParsed, hfail]
  rw [h]
  refine ⟨?_, rfl, rfl, rfl⟩
  cases hm : response.message <;> simp [jsOr]

/-- A failed parse with and without a message. -/
theorem C6_parse_failure_reported_witness :
    (handleUpload { ResumeParser.init with
        file := some { name := "cv.pdf", size := 2048, type := "application/pdf" } }
      (.ok { success := false, data := none, message := some "" }) 5 "abc" (.ok ())).1.error =
        some "Failed to parse resume" :=
  (C6_parse_failure_reported
    { ResumeParser.init with
        file := some { name := "cv.pdf", size := 2048, type := "application/pdf" } }
    { name := "cv.pdf", size := 2048, type := "application/pdf" }
    { success := false, data := none, message := some "" } 5 "abc" (.ok ()) rfl rfl).1

/-! ## The stored file -/

theorem handleFileChange_file (p : ResumeParser) (f : File) :
    (handleFileChange p (some f)).file = if acceptedType f.type then some f else p.file := by
  by_cases h1 : f.type = "application/pdf"
  · simp [handleFileChange, acceptedType, h1]
  · by_cases h2 : f.type =
        "application/vnd.openxmlformats-officedocument.wordprocessingml.document"
    · simp [handleFileChange, acceptedType, h2]
    · simp [handleFileChange, acceptedType, h1, h2]

theorem runEffect_resumeParser (s : Client) : (runEffect s).resumeParser = s.resumeParser := by
  unfold runEffect
  split_ifs <;> rfl

theorem runEffect_sent (s : Client) (f : File) :
    Request.parseResume f ∈ (runEffect s).sent ↔ Request.parseResume f ∈ s.sent := by
  unfold runEffect
  split_ifs <;> simp [initChatBegin]

theorem FileInv_runEffect (s : Client) (h : FileInv s) : FileInv (runEffect s) :=
  ⟨fun f hf => h.1 f (by rwa [runEffect_resumeParser] at hf),
   fun f hf => h.2 f ((runEffect_sent s f).1 hf)⟩

theorem FileInv_render (s : Client) (a : App) (h : FileInv s) : FileInv (render s a) := by
  unfold render
  split_ifs
  · exact FileInv_runEffect _ h
  · exact h
  · exact FileInv_runEffect _ h
  · exact ⟨fun f hf => by simp [ResumeParser.init] at hf, h.2⟩
  · exact h

theorem FileInv_handoff (s : Client) (d : Option Profile) (sid : String) (h : FileInv s) :
    FileInv (handoff s d sid) :=
  FileInv_render _ _ h

theorem FileInv_stepClickParse (s : Client) (h : FileInv s) : FileInv (stepClickParse s) := by
  unfold stepClickParse
  split_ifs
  · exact h
  · cases hf : s.resumeParser.file with
    | none => simpa [handleUploadBegin, hf, FileInv] using h.2
    | some f =>
      have hok := h.1 f hf
      refine ⟨fun g hg => ?_, fun g hg => ?_⟩
      · simp [handleUploadBegin, hf] at hg
        exact hg ▸ hok
      · simp [handleUploadBegin, hf] at hg
        rcases hg with hg | hg
        · exact h.2 g hg
        · exact hg ▸ hok

theorem FileInv_stepClickStart (s : Client) (now : Nat) (h : FileInv s) :
    FileInv (stepClickStart s now) := by
  unfold stepClickStart
  split_ifs
  · exact h
  · cases hs : startJobHunting s.resumeParser now with
    | none => exact h
    | some r => exact FileInv_handoff _ _ _ h

theorem FileInv_stepSend (s : Client) (now : Nat) (h : FileInv s) : FileInv (stepSend s now) := by
  unfold stepSend
  split_ifs
  · cases hs : handleSendMessageBegin s.jobChatbot s.app.sessionId now with
    | none => exact h
    | some r =>
      have hr : r.2 = Request.chat (jsTemplate s.app.sessionId)
          { role := "user", content := s.jobChatbot.inputMessage } := by
        unfold handleSendMessageBegin at hs
        split_ifs at hs
        simp at hs
        rw [← hs]
      refine ⟨h.1, fun g hg => h.2 g ?_⟩
      simp [hr] at hg
      exact hg
  · exact h

theorem handleUploadParsed_file (p : ResumeParser) (now : Nat) (rnd : String)
    (reply : Except AxiosError ParseResponse) :
    (handleUploadParsed p now rnd reply).1.file = p.file := by
  unfold handleUploadParsed
  rcases reply with e | r
  · rfl
  · by_cases hr : r.success = true <;> simp [hr]

theorem handleUploadCreated_file (p : ResumeParser) (sid : String) (d : Option Profile)
    (reply : Except AxiosError Unit) :
    (handleUploadCreated p sid d reply).1.file = p.file := by
  rcases reply with e | r <;> rfl

theorem FileInv_of (s t : Client) (h : FileInv s)
    (hp : t.resumeParser.file = s.resumeParser.file)
    (hs : ∀ f, Request.parseResume f ∈ t.sent → Request.parseResume f ∈ s.sent) : FileInv t :=
  ⟨fun f hf => h.1 f (by rwa [hp] at hf), fun f hf => h.2 f (hs f hf)⟩

theorem FileInv_stepParseResumeDone (s : Client) (i : Nat)
    (reply : Except AxiosError ParseResponse) (now : Nat) (rnd : String) (h : FileInv s) :
    FileInv (stepParseResumeDone s i reply now rnd) := by
  unfold stepParseResumeDone
  split
  · dsimp only
    split
    · refine FileInv_of s _ h ?_ (fun f hf => hf)
      simp only [apply_ite ResumeParser.file, handleUploadParsed_file, ite_self]
    · refine FileInv_of s _ h ?_ (fun f hf => ?_)
      · simp only [apply_ite ResumeParser.file, handleUploadParsed_file, ite_self]
      · simpa using hf
  · exact h

theorem FileInv_stepCreateAgentDone (s : Client) (i : Nat) (reply : Except AxiosError Unit)
    (h : FileInv s) : FileInv (stepCreateAgentDone s i reply) := by
  unfold stepCreateAgentDone
  split
  · dsimp only
    split
    · refine FileInv_of s _ h ?_ (fun f hf => hf)
      simp only [apply_ite ResumeParser.file, handleUploadCreated_file, ite_self]
    · refine FileInv_handoff _ _ _ (FileInv_of s _ h ?_ (fun f hf => hf))
      simp only [apply_ite ResumeParser.file, handleUploadCreated_file, ite_self]
  · exact h

theorem FileInv_stepChatDone (s : Client) (i : Nat) (reply : Except AxiosError ChatResponse)
    (now : Nat) (h : FileInv s) : FileInv (stepChatDone s i reply now) := by
  unfold stepChatDone
  split
  · exact FileInv_of s _ h rfl (fun f hf => hf)
  · exact FileInv_of s _ h rfl (fun f hf => hf)
  · exact h

theorem FileInv_step (s : Client) (e : Event) (h : FileInv s) : FileInv (step s e) := by
  cases e with
  | selectFile sel =>
    simp only [step]
    split_ifs
    · exact h
    · cases sel with
      | none => exact h
      | some f =>
        refine ⟨fun g hg => ?_, h.2⟩
        simp only [handleFileChange_file] at hg
        split_ifs at hg with hok
        · simp at hg
          exact hg ▸ hok
        · exact h.1 g hg
  | clickParse => exact FileInv_stepClickParse s h
  | clickReset =>
    simp only [step]
    split_ifs
    · exact h
    · exact ⟨fun g hg => by simp [handleReset] at hg, h.2⟩
  | clickStart now => exact FileInv_stepClickStart s now h
  | typeInput value =>
    simp only [step]
    split_ifs
    · exact h
    · exact h
  | send now => exact FileInv_stepSend s now h
  | quickAction action =>
    simp only [step]
    split_ifs
    · exact h
    · exact h
  | toggleJob index =>
    simp only [step]
    split_ifs <;> exact h
  | uploadNew =>
    simp only [step]
    split_ifs
    · exact FileInv_render _ _ h
    · exact h
  | parseResumeDone i reply now rnd => exact FileInv_stepParseResumeDone s i reply now rnd h
  | createAgentDone i reply => exact FileInv_stepCreateAgentDone s i reply h
  | chatDone i reply now => exact FileInv_stepChatDone s i reply now h

theorem FileInv_foldl (events : List Event) (s : Client) (h : FileInv s) :
    FileInv (events.foldl step s) := by
  induction events generalizing s with
  | nil => exact h
  | cons e es ih => exact ih _ (FileInv_step s e h)

theorem FileInv_init : FileInv Client.init :=
  ⟨fun f hf => by simp [Client.init, ResumeParser.init] at hf,
   fun f hf => by simp [Client.init] at hf⟩

/-- C7: `handleFileChange` stores a selected file only when its MIME type is
'application/pdf' or
'application/vnd.openxmlformats-officedocument.wordprocessingml.document';
for a file of any other type it sets the error
'Please upload a PDF or DOCX file' and leaves the stored file unchanged.
Consequently, after any sequence of events of the client (selections and
resets among them) the stored file is either `null` or of one of those two
types, and every file that `handleUpload` has posted to `/parse-resume` is of
one of those two types. -/
theorem C7_only_pdf_or_docx_stored (p : ResumeParser) (f : File) (events : List Event) :
    ((f.type = "application/pdf" ∨
        f.type = "application/vnd.openxmlformats-officedocument.wordprocessingml.document") →
        (handleFileChange p (some f)).file = some f) ∧
    (f.type ≠ "application/pdf" →
      f.type ≠ "application/vnd.openxmlformats-officedocument.wordprocessingml.document" →
        (handleFileChange p (some f)).file = p.file ∧
        (handleFileChange p (some f)).error = some "Please upload a PDF or DOCX file") ∧
    ((run events).resumeParser.file = none ∨
      ∃ g, (run events).resumeParser.file = some g ∧
        (g.type = "application/pdf" ∨
         g.type = "application/vnd.openxmlformats-officedocument.wordprocessingml.document")) ∧
    (∀ g, Request.parseResume g ∈ (run events).sent →
        g.type = "application/pdf" ∨
        g.type = "application/vnd.openxmlformats-officedocument.wordprocessingml.document") := by
  have hinv : FileInv (run events) := FileInv_foldl events _ FileInv_init
  have hacc : ∀ g : File, acceptedType g.type = true →
      g.type = "application/pdf" ∨
      g.type = "application/vnd.openxmlformats-officedocument.wordprocessingml.document" := by
    intro g hg
    simpa [acceptedType] using hg
  refine ⟨?_, ?_, ?_, fun g hg => hacc g (hinv.2 g hg)⟩
  · intro h
    rw [handleFileChange_file]
    have : acceptedType f.type = true := by simpa [acceptedType] using h
    simp [this]
  · intro h1 h2
    simp [handleFileChange, h1, h2]
  · cases hf : (run events).resumeParser.file with
    | none => exact Or.inl rfl
    | some g => exact Or.inr ⟨g, rfl, hacc g (hinv.1 g hf)⟩

/-- A text file is refused and an accepted file stays stored. -/
theorem C7_only_pdf_or_docx_stored_witness :
    (handleFileChange
        { ResumeParser.init with
          file := some { name := "cv.pdf", size := 2048, type := "application/pdf" } }
        (some { name := "notes.txt", size := 10, type := "text/plain" })).file =
      some { name := "cv.pdf", size := 2048, type := "application/pdf" } :=
  ((C7_only_pdf_or_docx_stored
      { ResumeParser.init with
        file := some { name := "cv.pdf", size := 2048, type := "application/pdf" } }
      { name := "notes.txt", size := 10, type := "text/plain" } []).2.1
    (by decide) (by decide)).1

/-! ## The hand-off to `JobChatbot` -/

/-- Within `handleUpload`, `onResumeParsed` is called only with the session
identifier and profile of a `/create-agent` request that was sent and has
succeeded. -/
theorem handleUpload_handoff_after_createAgent (p : ResumeParser)
    (parseReply : Except AxiosError ParseResponse) (now : Nat) (rnd : String)
    (createReply : Except AxiosError Unit) (d : Option Profile) (sid : String)
    (h : Effect.onResumeParsed d sid ∈ (handleUpload p parseReply now rnd createReply).2) :
    createReply = .ok () ∧
      Effect.request (Request.createAgent sid d) ∈
        (handleUpload p parseReply now rnd createReply).2 := by
  unfold handleUpload at h ⊢
  cases hf : p.file with
  | none => simp [handleUploadBegin, hf] at h
  | some f =>
    rcases parseReply with e | r
    · simp [handleUploadBegin, hf, handleUploadParsed] at h
    · by_cases hs : r.success = true
      · rcases createReply with e | u
        · simp [handleUploadBegin, hf, handleUploadParsed, hs, handleUploadCreated] at h
        · simp [handleUploadBegin, hf, handleUploadParsed, hs, handleUploadCreated] at h ⊢
          simp [h.1, h.2]
      · simp [handleUploadBegin, hf, handleUploadParsed, hs] at h

/-- C1, on the code: after `startAfterFailedCreate` the only call of
`onResumeParsed` carries the session identifier `session_2000`, and
`JobChatbot` has posted to `/chat/session_2000`, although the only
`/create-agent` request the client ever sent is for `session_1000_abc` and
no `/create-agent` request has completed successfully. -/
theorem C1_start_button_hands_off_unregistered_session :
    (run startAfterFailedCreate).handoffs = [(some sampleProfile, "session_2000")] ∧
      (run startAfterFailedCreate).sent =
        [ Request.parseResume sampleFile,
          Request.createAgent "session_1000_abc" (some sampleProfile),
          Request.chat "session_2000" { role := "user", content := "hello" } ] ∧
      (run startAfterFailedCreate).created = [] := by
  refine ⟨by rfl, by rfl, by rfl⟩

/-! ## Requests in flight -/

/-- While `loading` is true a call of `handleSendMessage` changes nothing and
sends nothing. -/
theorem stepSend_of_loading (s : Client) (now : Nat) (h : s.jobChatbot.loading = true) :
    stepSend s now = s := by
  unfold stepSend
  split_ifs
  · simp [handleSendMessageBegin, sendBlocked, h]
  · rfl

/-- C9, on the code: after `secondHandoffWhileChatting` the `initChat` request
to `/chat/session_1000_abc` is in flight while `loading` is false, and a call
of `handleSendMessage` then sends a second request to
`/chat/session_1000_abc`, so that two are in flight, both sent by the mounted
`JobChatbot` instance. -/
theorem C9_two_chat_requests_in_flight :
    (run secondHandoffWhileChatting).jobChatbot.loading = false ∧
      (outstandingChat (run secondHandoffWhileChatting) "session_1000_abc").length = 1 ∧
      (outstandingChat (step (run secondHandoffWhileChatting) (Event.send 3000))
        "session_1000_abc").length = 2 ∧
      (liveChat (step (run secondHandoffWhileChatting) (Event.send 3000))).length = 2 ∧
      (step (run secondHandoffWhileChatting) (Event.send 3000)).jobChatbot.messages =
        [{ id := 3000, role := "user", content := "hi", jobSuggestions := none }] := by
  refine ⟨by rfl, by rfl, by rfl, by rfl, by rfl⟩

/-! ## Single flight and hand-off when the 'Start Job Hunting' button is not pressed -/

theorem countP_eraseIdx (q : Pending → Bool) (l : List Pending) (i : Nat) (x : Pending)
    (h : l.get? i = some x) :
    (l.eraseIdx i).countP q + (if q x then 1 else 0) = l.countP q := by
  induction l generalizing i with
  | nil => simp at h
  | cons a t ih =>
    cases i with
    | zero =>
      have hx : a = x := by simpa using h
      simp [List.countP_cons, hx]
    | succ n =>
      have h2 : t.get? n = some x := by simpa using h
      have := ih n h2
      simp only [List.eraseIdx_cons_succ, List.countP_cons]
      omega

theorem SingleFlight_frame (s t : Client) (h : SingleFlight s) (hp : t.pending = s.pending)
    (hi : t.inst = s.inst) (hm : t.chatMounted = s.chatMounted)
    (hl : t.jobChatbot.loading = s.jobChatbot.loading)
    (hpl : t.resumeParser.loading = s.resumeParser.loading) : SingleFlight t := by
  unfold SingleFlight at h ⊢
  rw [hp, hi, hm, hl, hpl]
  exact h

theorem SingleFlight_init : SingleFlight Client.init := by
  simp [SingleFlight, Client.init, Client.chatMounted, App.init, ResumeParser.init]

theorem handleFileChange_loading (p : ResumeParser) (f : Option File) :
    (handleFileChange p f).loading = p.loading := by
  cases f with
  | none => rfl
  | some f =>
    simp only [handleFileChange]
    split_ifs <;> rfl

theorem handleQuickAction_loading (c : JobChatbot) (a : String) :
    (handleQuickAction c a).loading = c.loading := by
  unfold handleQuickAction
  split_ifs <;> rfl

theorem SingleFlight_stepClickParse (s : Client) (h : SingleFlight s) :
    SingleFlight (stepClickParse s) := by
  unfold stepClickParse
  split_ifs with hg
  · exact h
  · simp only [Bool.or_eq_true, not_or, Bool.not_eq_true] at hg
    obtain ⟨⟨⟨hm, _⟩, hf⟩, hl⟩ := hg
    obtain ⟨h1, h2, _, h4⟩ := h
    obtain ⟨h4a, h4b, h4c⟩ := h4 hm
    cases hfile : s.resumeParser.file with
    | none => simp [hfile] at hf
    | some f =>
      simp only [handleUploadBegin, hfile]
      refine ⟨?_, ?_, ?_, ?_⟩
      · intro p hp
        simp at hp
        rcases hp with hp | hp
        · exact h1 p hp
        · simp [hp]
      · intro p hp
        simp at hp
        rcases hp with hp | hp
        · exact h2 p hp
        · simp [hp, isChat, isUpload]
      · intro hm2
        simp [Client.chatMounted] at hm hm2
        simp [hm] at hm2
      · intro _
        refine ⟨?_, ?_, ?_⟩
        · intro p hp hu
          simp at hp
          rcases hp with hp | hp
          · exact h4a p hp hu
          · simp [hp, isUpload] at hu
        · intro p hp hu
          simp at hp
          rcases hp with hp | hp
          · exact h4b p hp hu
          · simp [hp]
        · have h0 : s.pending.countP isUpload = 0 := by simpa [hl] using h4c
          rw [List.countP_append, h0]
          simp [isUpload]

theorem SingleFlight_stepSend (s : Client) (now : Nat) (h : SingleFlight s) :
    SingleFlight (stepSend s now) := by
  unfold stepSend
  split_ifs with hm
  · unfold handleSendMessageBegin
    split_ifs with hb
    · exact h
    · simp only [sendBlocked, Bool.or_eq_true, not_or, Bool.not_eq_true] at hb
      obtain ⟨_, hl⟩ := hb
      obtain ⟨h1, h2, h3, _⟩ := h
      obtain ⟨h3a, h3b⟩ := h3 hm
      refine ⟨?_, ?_, ?_, ?_⟩
      · intro p hp
        simp at hp
        rcases hp with hp | hp
        · exact h1 p hp
        · simp [hp]
      · intro p hp
        simp at hp
        rcases hp with hp | hp
        · exact h2 p hp
        · simp [hp, isChat, isUpload]
      · intro _
        refine ⟨?_, ?_⟩
        · intro p hp
          simp at hp
          rcases hp with hp | hp
          · exact h3a p hp
          · simp [hp, isUpload]
        · have h0 : s.pending.countP (fun p => p.inst = s.inst) = 0 := by simpa [hl] using h3b
          simp only [List.countP_append, h0]
          simp
      · intro hm2
        simp [Client.chatMounted] at hm hm2
        simp [hm2] at hm
  · exact h

/-- Mounting `JobChatbot` when no `handleUpload` is under way. -/
theorem SingleFlight_mountChat (s : Client) (a : App)
    (h1 : ∀ p ∈ s.pending, p.inst ≤ s.inst)
    (h2 : ∀ p ∈ s.pending, (isChat p.request = true ↔ isUpload p = false))
    (h3 : ∀ p ∈ s.pending, isUpload p = false)
    (ha : a.resumeData.isSome = true) :
    SingleFlight (runEffect { s with app := a, jobChatbot := JobChatbot.init,
                                     inst := s.inst + 1 }) := by
  have hc : s.pending.countP (fun p => p.inst = s.inst + 1) = 0 := by
    rw [List.countP_eq_zero]
    intro p hp
    have := h1 p hp
    simp
    omega
  unfold runEffect
  split_ifs
  · refine ⟨?_, ?_, ?_, ?_⟩
    · intro p hp
      simp at hp
      rcases hp with hp | hp
      · have := h1 p hp
        simp
        omega
      · simp [hp]
    · intro p hp
      simp at hp
      rcases hp with hp | hp
      · exact h2 p hp
      · simp [hp, isChat, isUpload, initChatBegin]
    · intro _
      refine ⟨?_, ?_⟩
      · intro p hp
        simp at hp
        rcases hp with hp | hp
        · exact h3 p hp
        · simp [hp, isUpload]
      · simp only [List.countP_append, hc]
        simp [initChatBegin]
    · intro hm
      simp [Client.chatMounted, ha] at hm
  · refine ⟨?_, h2, ?_, ?_⟩
    · intro p hp
      have := h1 p hp
      simp
      omega
    · intro _
      exact ⟨h3, by simpa [JobChatbot.init] using hc⟩
    · intro hm
      simp [Client.chatMounted, ha] at hm

/-- Mounting `ResumeParser` when no `handleUpload` is under way. -/
theorem SingleFlight_mountParser (s : Client) (a : App)
    (h1 : ∀ p ∈ s.pending, p.inst ≤ s.inst)
    (h2 : ∀ p ∈ s.pending, (isChat p.request = true ↔ isUpload p = false))
    (h3 : ∀ p ∈ s.pending, isUpload p = false)
    (ha : a.resumeData.isSome = false) :
    SingleFlight { s with app := a, resumeParser := ResumeParser.init, inst := s.inst + 1 } := by
  refine ⟨?_, h2, ?_, ?_⟩
  · intro p hp
    have := h1 p hp
    simp
    omega
  · intro hm
    simp [Client.chatMounted, ha] at hm
  · intro _
    refine ⟨?_, ?_, ?_⟩
    · intro p hp _
      have := h1 p hp
      simp
      omega
    · intro p hp hu
      simp [h3 p hp] at hu
    · simp only [ResumeParser.init]
      rw [List.countP_eq_zero.2 (fun p hp => by simp [h3 p hp])]
      simp

/-- A call of `onResumeParsed` made while `ResumeParser` is mounted and no
`handleUpload` is under way any more. -/
theorem SingleFlight_handoff (s : Client) (d : Option Profile) (sid : String)
    (h : SingleFlight s) (hm : s.chatMounted = false)
    (h0 : ∀ p ∈ s.pending, isUpload p = false) : SingleFlight (handoff s d sid) := by
  unfold handoff render
  have hm2 : s.app.resumeData.isSome = false := hm
  simp only [hm2, handleResumeParsed]
  cases hd : d with
  | none =>
    simp
    exact SingleFlight_frame s _ h rfl rfl (by simp [Client.chatMounted, hm2]) rfl rfl
  | some v =>
    simp
    exact SingleFlight_mountChat { s with handoffs := s.handoffs ++ [(some v, sid)] }
      { resumeData := some v, sessionId := some sid } h.1 h.2.1 h0 rfl

/-- A `handleUpload` request in flight shows that `ResumeParser` is mounted,
that the request belongs to the mounted instance, that `loading` is true and
that it is the only `handleUpload` request in flight. -/
theorem SingleFlight_upload_pending (s : Client) (h : SingleFlight s) (i : Nat) (x : Pending)
    (hx : s.pending.get? i = some x) (hu : isUpload x = true) :
    s.chatMounted = false ∧ x.inst = s.inst ∧ s.resumeParser.loading = true ∧
      ∀ p ∈ s.pending.eraseIdx i, isUpload p = false := by
  have hmem := List.get?_mem hx
  have hm : s.chatMounted = false := by
    by_contra hc
    have := (h.2.2.1 (by simpa using hc)).1 x hmem
    simp [hu] at this
  obtain ⟨_, hb, hc⟩ := h.2.2.2 hm
  have hcount := countP_eraseIdx isUpload s.pending i x hx
  simp only [hu, if_true] at hcount
  have hl : s.resumeParser.loading = true := by
    by_contra hl
    simp [hl] at hc
    have := hc x hmem
    simp [hu] at this
  rw [hc, hl] at hcount
  simp at hcount
  refine ⟨hm, hb x hmem hu, hl, ?_⟩
  intro p hp
  have := hcount p hp
  simpa using this

theorem handleUploadParsed_loading (p : ResumeParser) (now : Nat) (rnd : String)
    (reply : Except AxiosError ParseResponse) (hl : p.loading = true) :
    (handleUploadParsed p now rnd reply).1.loading =
      (handleUploadParsed p now rnd reply).2.isSome := by
  unfold handleUploadParsed
  rcases reply with e | r
  · rfl
  · by_cases hr : r.success = true <;> simp [hr, hl]

theorem SingleFlight_stepParseResumeDone (s : Client) (i : Nat)
    (reply : Except AxiosError ParseResponse) (now : Nat) (rnd : String) (h : SingleFlight s) :
    SingleFlight (stepParseResumeDone s i reply now rnd) := by
  unfold stepParseResumeDone
  split
  · rename_i k f hx
    obtain ⟨hm, hk, hl, h0⟩ := SingleFlight_upload_pending s h i _ hx rfl
    simp only at hk
    have hload := handleUploadParsed_loading s.resumeParser now rnd reply hl
    have hm2 : ¬ s.chatMounted = true := by simp [hm]
    have hlive : (k = s.inst ∧ ¬ s.chatMounted = true) := ⟨hk, hm2⟩
    have hI1 : ∀ p ∈ s.pending.eraseIdx i, p.inst ≤ s.inst :=
      fun p hp => h.1 p (List.mem_of_mem_eraseIdx hp)
    have hI2 : ∀ p ∈ s.pending.eraseIdx i, (isChat p.request = true ↔ isUpload p = false) :=
      fun p hp => h.2.1 p (List.mem_of_mem_eraseIdx hp)
    have hI4 : ∀ p ∈ s.pending.eraseIdx i, isUpload p = false → p.inst < s.inst :=
      fun p hp => (h.2.2.2 hm).1 p (List.mem_of_mem_eraseIdx hp)
    have hc0 : (s.pending.eraseIdx i).countP isUpload = 0 :=
      List.countP_eq_zero.2 (fun p hp => by simp [h0 p hp])
    dsimp only
    split
    · rename_i hr
      rw [hr] at hload
      refine ⟨hI1, hI2, fun hc => absurd hc hm2, fun _ => ⟨hI4, ?_, ?_⟩⟩
      · intro p hp hu
        simp [h0 p hp] at hu
      · simp only [hlive, and_self, if_true, hc0]
        simp at hload
        simp [hload]
    · rename_i sessionId data hr
      rw [hr] at hload
      refine ⟨?_, ?_, fun hc => absurd hc hm2, fun _ => ⟨?_, ?_, ?_⟩⟩
      · intro p hp
        simp at hp
        rcases hp with hp | hp
        · exact hI1 p hp
        · simp [hp, hk]
      · intro p hp
        simp at hp
        rcases hp with hp | hp
        · exact hI2 p hp
        · simp [hp, isChat, isUpload]
      · intro p hp hu
        simp at hp
        rcases hp with hp | hp
        · exact hI4 p hp hu
        · simp [hp, isUpload] at hu
      · intro p hp hu
        simp at hp
        rcases hp with hp | hp
        · simp [h0 p hp] at hu
        · simp [hp, hk]
      · simp only [hlive, and_self, if_true, List.countP_append, hc0]
        simp at hload
        simp [hload, isUpload]
  · exact h

theorem handleUploadCreated_loading (p : ResumeParser) (sid : String) (d : Option Profile)
    (reply : Except AxiosError Unit) :
    (handleUploadCreated p sid d reply).1.loading = false := by
  rcases reply with e | r <;> rfl

theorem SingleFlight_stepCreateAgentDone (s : Client) (i : Nat) (reply : Except AxiosError Unit)
    (h : SingleFlight s) : SingleFlight (stepCreateAgentDone s i reply) := by
  unfold stepCreateAgentDone
  split
  · rename_i k sessionId data hx
    obtain ⟨hm, hk, hl, h0⟩ := SingleFlight_upload_pending s h i _ hx rfl
    simp only at hk
    have hm2 : ¬ s.chatMounted = true := by simp [hm]
    have hlive : (k = s.inst ∧ ¬ s.chatMounted = true) := ⟨hk, hm2⟩
    have hc0 : (s.pending.eraseIdx i).countP isUpload = 0 :=
      List.countP_eq_zero.2 (fun p hp => by simp [h0 p hp])
    have hs1 : ∀ cr : List String, SingleFlight { s with
        pending := s.pending.eraseIdx i,
        resumeParser := (handleUploadCreated s.resumeParser sessionId data reply).1,
        created := cr } := by
      intro cr
      refine ⟨fun p hp => h.1 p (List.mem_of_mem_eraseIdx hp),
        fun p hp => h.2.1 p (List.mem_of_mem_eraseIdx hp),
        fun hc => absurd hc hm2, fun _ => ⟨?_, ?_, ?_⟩⟩
      · exact fun p hp => (h.2.2.2 hm).1 p (List.mem_of_mem_eraseIdx hp)
      · intro p hp hu
        simp [h0 p hp] at hu
      · simp only [hc0, handleUploadCreated_loading]
        simp
    dsimp only
    simp only [hlive, and_self, if_true]
    split
    · exact hs1 _
    · exact SingleFlight_handoff _ _ _ (hs1 _) hm h0
  · exact h

theorem initChatEnd_loading (c : JobChatbot) (now : Nat)
    (reply : Except AxiosError ChatResponse) : (initChatEnd c now reply).loading = false := by
  rcases reply with e | r
  · rfl
  · cases hj : r.job_suggestions <;> simp [initChatEnd, hj]

/-- The completion of a chat request that `ender` handles for the mounted
instance, or that belongs to an instance no longer mounted. -/
theorem SingleFlight_chatDone (s : Client) (i : Nat) (x : Pending) (c : JobChatbot)
    (h : SingleFlight s) (hx : s.pending.get? i = some x) (hu : isUpload x = false)
    (hc : c.loading = false) :
    SingleFlight { s with
      pending := s.pending.eraseIdx i,
      jobChatbot := if x.inst = s.inst ∧ s.chatMounted = true then c else s.jobChatbot } := by
  have hmem := List.get?_mem hx
  refine ⟨fun p hp => h.1 p (List.mem_of_mem_eraseIdx hp),
    fun p hp => h.2.1 p (List.mem_of_mem_eraseIdx hp), ?_, ?_⟩
  · intro hm
    have hm1 : s.chatMounted = true := hm
    obtain ⟨ha, hb⟩ := h.2.2.1 hm1
    refine ⟨fun p hp => ha p (List.mem_of_mem_eraseIdx hp), ?_⟩
    have hcount := countP_eraseIdx (fun p => decide (p.inst = s.inst)) s.pending i x hx
    show (s.pending.eraseIdx i).countP (fun p => decide (p.inst = s.inst)) = _
    by_cases hk : x.inst = s.inst
    · simp only [hk, decide_True, if_true] at hcount
      have hl : s.jobChatbot.loading = true := by
        by_contra hl
        simp [hl] at hb
        exact hb x hmem hk
      rw [hb, hl] at hcount
      simp only [hk, hm1, and_self, if_true, hc]
      simp at hcount ⊢
      exact hcount
    · simp only [hk, decide_False] at hcount
      simp only [hk, false_and, if_false]
      simp at hcount
      rw [← hb]
      simpa using hcount
  · intro hm
    have hm1 : s.chatMounted = false := hm
    obtain ⟨ha, hb, hcnt⟩ := h.2.2.2 hm1
    refine ⟨fun p hp => ha p (List.mem_of_mem_eraseIdx hp),
      fun p hp => hb p (List.mem_of_mem_eraseIdx hp), ?_⟩
    have hcount := countP_eraseIdx isUpload s.pending i x hx
    simp [hu] at hcount
    show (s.pending.eraseIdx i).countP isUpload = _
    rw [hcount]
    exact hcnt

theorem SingleFlight_stepChatDone (s : Client) (i : Nat) (reply : Except AxiosError ChatResponse)
    (now : Nat) (h : SingleFlight s) : SingleFlight (stepChatDone s i reply now) := by
  unfold stepChatDone
  split
  · rename_i k sid body hx
    exact SingleFlight_chatDone s i _ (initChatEnd s.jobChatbot now reply) h hx rfl
      (initChatEnd_loading _ _ _)
  · rename_i k sid body hx
    exact SingleFlight_chatDone s i _ (handleSendMessageEnd s.jobChatbot now reply) h hx rfl
      (handleSendMessageEnd_loading _ _ _)
  · exact h

theorem SingleFlight_step (s : Client) (e : Event) (he : e.isClickStart = false)
    (h : SingleFlight s) : SingleFlight (step s e) := by
  cases e with
  | selectFile sel =>
    simp only [step]
    split_ifs
    · exact h
    · exact SingleFlight_frame s _ h rfl rfl rfl rfl (handleFileChange_loading _ _)
  | clickParse => exact SingleFlight_stepClickParse s h
  | clickReset =>
    simp only [step]
    split_ifs
    · exact h
    · exact SingleFlight_frame s _ h rfl rfl rfl rfl rfl
  | clickStart now => simp [Event.isClickStart] at he
  | typeInput value =>
    simp only [step]
    split_ifs
    · exact SingleFlight_frame s _ h rfl rfl rfl rfl rfl
    · exact h
  | send now => exact SingleFlight_stepSend s now h
  | quickAction action =>
    simp only [step]
    split_ifs
    · exact SingleFlight_frame s _ h rfl rfl rfl (handleQuickAction_loading _ _) rfl
    · exact h
  | toggleJob index =>
    simp only [step]
    split_ifs <;> exact h
  | uploadNew =>
    simp only [step]
    split_ifs with hm
    · have hm2 : s.app.resumeData.isSome = true := hm
      simp only [render, onReset, Option.isSome_none, Bool.false_eq_true, if_false, hm2, if_true]
      exact SingleFlight_mountParser s _ h.1 h.2.1 (h.2.2.1 hm).1 rfl
    · exact h
  | parseResumeDone i reply now rnd => exact SingleFlight_stepParseResumeDone s i reply now rnd h
  | createAgentDone i reply => exact SingleFlight_stepCreateAgentDone s i reply h
  | chatDone i reply now => exact SingleFlight_stepChatDone s i reply now h

theorem SingleFlight_foldl (events : List Event) (s : Client)
    (he : ∀ e ∈ events, e.isClickStart = false) (h : SingleFlight s) :
    SingleFlight (events.foldl step s) := by
  induction events generalizing s with
  | nil => exact h
  | cons e es ih =>
    exact ih _ (fun x hx => he x (List.mem_cons_of_mem _ hx))
      (SingleFlight_step s e (he e (List.mem_cons_self _ _)) h)

/-- As long as the 'Start Job Hunting' button is not pressed, in every
reachable state with `JobChatbot` mounted the number of requests to `/chat`
that the mounted instance has in flight is 1 when `loading` is true and 0
when it is false. -/
theorem single_flight_without_start_button (events : List Event)
    (he : ∀ e ∈ events, e.isClickStart = false) (hm : (run events).chatMounted = true) :
    (liveChat (run events)).length = if (run events).jobChatbot.loading then 1 else 0 := by
  have h : SingleFlight (run events) := SingleFlight_foldl events Client.init he SingleFlight_init
  obtain ⟨_, h2, h3, _⟩ := h
  obtain ⟨ha, hb⟩ := h3 hm
  rw [← hb, liveChat, List.countP_eq_length_filter]
  congr 1
  apply List.filter_congr
  intro p hp
  have := (h2 p hp).2 (ha p hp)
  simp [this]

theorem HandoffInv_init : HandoffInv Client.init := by
  simp [HandoffInv, Client.init]

theorem HandoffInv_runEffect (s : Client) (h : HandoffInv s) : HandoffInv (runEffect s) := by
  unfold runEffect
  split_ifs
  · refine ⟨?_, ?_⟩
    · intro p hp
      simp at hp
      rcases hp with hp | hp
      · exact List.mem_append_left _ (h.1 p hp)
      · simp [hp]
    · intro x hx
      exact ⟨(h.2 x hx).1, List.mem_append_left _ (h.2 x hx).2⟩
  · exact h

theorem HandoffInv_render (s : Client) (a : App) (h : HandoffInv s) :
    HandoffInv (render s a) := by
  unfold render
  split_ifs
  · exact HandoffInv_runEffect _ h
  · exact h
  · exact HandoffInv_runEffect _ h
  · exact h
  · exact h

theorem HandoffInv_stepClickParse (s : Client) (h : HandoffInv s) :
    HandoffInv (stepClickParse s) := by
  unfold stepClickParse
  split_ifs
  · exact h
  · cases hf : s.resumeParser.file with
    | none => simpa [handleUploadBegin, hf] using h
    | some f =>
      simp only [handleUploadBegin, hf]
      refine ⟨?_, ?_⟩
      · intro p hp
        simp at hp
        rcases hp with hp | hp
        · exact List.mem_append_left _ (h.1 p hp)
        · simp [hp]
      · intro x hx
        exact ⟨(h.2 x hx).1, List.mem_append_left _ (h.2 x hx).2⟩

theorem HandoffInv_stepSend (s : Client) (now : Nat) (h : HandoffInv s) :
    HandoffInv (stepSend s now) := by
  unfold stepSend
  split_ifs
  · unfold handleSendMessageBegin
    split_ifs
    · exact h
    · refine ⟨?_, ?_⟩
      · intro p hp
        simp at hp
        rcases hp with hp | hp
        · exact List.mem_append_left _ (h.1 p hp)
        · simp [hp]
      · intro x hx
        exact ⟨(h.2 x hx).1, List.mem_append_left _ (h.2 x hx).2⟩
  · exact h

theorem HandoffInv_stepParseResumeDone (s : Client) (i : Nat)
    (reply : Except AxiosError ParseResponse) (now : Nat) (rnd : String) (h : HandoffInv s) :
    HandoffInv (stepParseResumeDone s i reply now rnd) := by
  unfold stepParseResumeDone
  split
  · dsimp only
    split
    · exact ⟨fun p hp => h.1 p (List.mem_of_mem_eraseIdx hp), h.2⟩
    · refine ⟨?_, ?_⟩
      · intro p hp
        simp at hp
        rcases hp with hp | hp
        · exact List.mem_append_left _ (h.1 p (List.mem_of_mem_eraseIdx hp))
        · simp [hp]
      · intro x hx
        exact ⟨(h.2 x hx).1, List.mem_append_left _ (h.2 x hx).2⟩
  · exact h

theorem HandoffInv_stepCreateAgentDone (s : Client) (i : Nat) (reply : Except AxiosError Unit)
    (h : HandoffInv s) : HandoffInv (stepCreateAgentDone s i reply) := by
  unfold stepCreateAgentDone
  split
  · rename_i k sessionId data hx
    have hsent : Request.createAgent sessionId data ∈ s.sent := h.1 _ (List.get?_mem hx)
    dsimp only
    rcases reply with e | u
    · simp only [handleUploadCreated]
      exact ⟨fun p hp => h.1 p (List.mem_of_mem_eraseIdx hp), h.2⟩
    · simp only [handleUploadCreated]
      unfold handoff
      refine HandoffInv_render _ _ ⟨fun p hp => h.1 p (List.mem_of_mem_eraseIdx hp), ?_⟩
      intro x hx2
      simp at hx2
      rcases hx2 with hx2 | hx2
      · exact ⟨List.mem_append_left _ (h.2 x hx2).1, (h.2 x hx2).2⟩
      · simp [hx2, hsent]
  · exact h

theorem HandoffInv_stepChatDone (s : Client) (i : Nat) (reply : Except AxiosError ChatResponse)
    (now : Nat) (h : HandoffInv s) : HandoffInv (stepChatDone s i reply now) := by
  unfold stepChatDone
  split
  · exact ⟨fun p hp => h.1 p (List.mem_of_mem_eraseIdx hp), h.2⟩
  · exact ⟨fun p hp => h.1 p (List.mem_of_mem_eraseIdx hp), h.2⟩
  · exact h

theorem HandoffInv_step (s : Client) (e : Event) (he : e.isClickStart = false)
    (h : HandoffInv s) : HandoffInv (step s e) := by
  cases e with
  | selectFile sel =>
    simp only [step]
    split_ifs <;> exact h
  | clickParse => exact HandoffInv_stepClickParse s h
  | clickReset =>
    simp only [step]
    split_ifs <;> exact h
  | clickStart now => simp [Event.isClickStart] at he
  | typeInput value =>
    simp only [step]
    split_ifs <;> exact h
  | send now => exact HandoffInv_stepSend s now h
  | quickAction action =>
    simp only [step]
    split_ifs <;> exact h
  | toggleJob index =>
    simp only [step]
    split_ifs <;> exact h
  | uploadNew =>
    simp only [step]
    split_ifs
    · exact HandoffInv_render _ _ h
    · exact h
  | parseResumeDone i reply now rnd => exact HandoffInv_stepParseResumeDone s i reply now rnd h
  | createAgentDone i reply => exact HandoffInv_stepCreateAgentDone s i reply h
  | chatDone i reply now => exact HandoffInv_stepChatDone s i reply now h

/-- As long as the 'Start Job Hunting' button is not pressed, every session
identifier passed to `onResumeParsed` is one for which `/create-agent` was
posted with the profile handed over and has completed successfully. -/
theorem handoffs_registered_without_start_button (events : List Event)
    (he : ∀ e ∈ events, e.isClickStart = false) (data : Option Profile) (sessionId : String)
    (h : (data, sessionId) ∈ (run events).handoffs) :
    sessionId ∈ (run events).created ∧
      Request.createAgent sessionId data ∈ (run events).sent := by
  have hinv : ∀ (es : List Event) (s : Client), (∀ e ∈ es, e.isClickStart = false) →
      HandoffInv s → HandoffInv (es.foldl step s) := by
    intro es
    induction es with
    | nil => exact fun s _ hs => hs
    | cons e es ih =>
      exact fun s hes hs => ih _ (fun x hx => hes x (List.mem_cons_of_mem _ hx))
        (HandoffInv_step s e (hes e (List.mem_cons_self _ _)) hs)
  exact (hinv events Client.init he HandoffInv_init).2 _ h

/-! ## The session label -/

theorem SessionForm_append (rest : String) : SessionForm ("session_" ++ rest) := by
  unfold SessionForm
  rw [String.data_append]
  exact List.take_left' rfl

theorem SessionForm_uploadSessionId (now : Nat) (rnd : String) :
    SessionForm (uploadSessionId now rnd) := by
  unfold uploadSessionId
  rw [String.append_assoc, String.append_assoc]
  exact SessionForm_append _

theorem SessionForm_startSessionId (now : Nat) : SessionForm (startSessionId now) :=
  SessionForm_append _

theorem sessionLabel_of_form (sid : String) (h : SessionForm sid) :
    sessionLabel (some sid) = "session_..." := by
  have h2 : sid.data.take 8 = "session_".data := h
  simp only [sessionLabel, jsSubstring0, h2]
  rfl

theorem SessionInv_init : SessionInv Client.init := by
  simp [SessionInv, Client.init, Client.chatMounted, App.init]

theorem SessionInv_runEffect (s : Client) (h : SessionInv s) : SessionInv (runEffect s) := by
  unfold runEffect
  split_ifs
  · refine ⟨?_, h.2.1, h.2.2⟩
    intro p hp sid d hreq
    simp at hp
    rcases hp with hp | hp
    · exact h.1 p hp sid d hreq
    · simp [hp, initChatBegin] at hreq
  · exact h

/-- A call of `onResumeParsed` with an identifier that starts with 'session_'. -/
theorem SessionInv_handoff (s : Client) (d : Option Profile) (sid : String)
    (h : SessionInv s) (hsid : SessionForm sid) : SessionInv (handoff s d sid) := by
  have hh : ∀ x ∈ s.handoffs ++ [(d, sid)], SessionForm x.2 := by
    intro x hx
    simp at hx
    rcases hx with hx | hx
    · exact h.2.1 x hx
    · simpa [hx] using hsid
  unfold handoff render
  simp only [handleResumeParsed]
  split_ifs with h1 h2 h3 h4
  · exact SessionInv_runEffect _ ⟨h.1, hh, fun _ => ⟨sid, rfl, hsid⟩⟩
  · exact ⟨h.1, hh, fun _ => ⟨sid, rfl, hsid⟩⟩
  · exact SessionInv_runEffect _ ⟨h.1, hh, fun _ => ⟨sid, rfl, hsid⟩⟩
  · exact ⟨h.1, hh, fun hm => by simp [Client.chatMounted] at hm; simp [hm] at h1⟩
  · exact ⟨h.1, hh, fun hm => by simp [Client.chatMounted] at hm; simp [hm] at h1⟩

theorem SessionInv_stepClickParse (s : Client) (h : SessionInv s) :
    SessionInv (stepClickParse s) := by
  unfold stepClickParse
  split_ifs
  · exact h
  · cases hf : s.resumeParser.file with
    | none => simpa [handleUploadBegin, hf] using h
    | some f =>
      simp only [handleUploadBegin, hf]
      refine ⟨?_, h.2.1, h.2.2⟩
      intro p hp sid d hreq
      simp at hp
      rcases hp with hp | hp
      · exact h.1 p hp sid d hreq
      · simp [hp] at hreq

theorem SessionInv_stepSend (s : Client) (now : Nat) (h : SessionInv s) :
    SessionInv (stepSend s now) := by
  unfold stepSend
  split_ifs
  · unfold handleSendMessageBegin
    split_ifs
    · exact h
    · refine ⟨?_, h.2.1, h.2.2⟩
      intro p hp sid d hreq
      simp at hp
      rcases hp with hp | hp
      · exact h.1 p hp sid d hreq
      · simp [hp] at hreq
  · exact h

theorem handleUploadParsed_sessionId (p : ResumeParser) (now : Nat) (rnd : String)
    (reply : Except AxiosError ParseResponse) (sid : String) (d : Option Profile)
    (h : (handleUploadParsed p now rnd reply).2 = some (sid, d)) : SessionForm sid := by
  unfold handleUploadParsed at h
  rcases reply with e | r
  · simp at h
  · by_cases hr : r.success = true
    · simp [hr] at h
      exact h.1 ▸ SessionForm_uploadSessionId now rnd
    · simp [hr] at h

theorem SessionInv_stepParseResumeDone (s : Client) (i : Nat)
    (reply : Except AxiosError ParseResponse) (now : Nat) (rnd : String) (h : SessionInv s) :
    SessionInv (stepParseResumeDone s i reply now rnd) := by
  unfold stepParseResumeDone
  split
  · dsimp only
    split
    · exact ⟨fun p hp => h.1 p (List.mem_of_mem_eraseIdx hp), h.2.1, h.2.2⟩
    · rename_i sid d hr
      have hsid := handleUploadParsed_sessionId _ _ _ _ _ _ hr
      refine ⟨?_, h.2.1, h.2.2⟩
      intro p hp sid2 d2 hreq
      simp at hp
      rcases hp with hp | hp
      · exact h.1 p (List.mem_of_mem_eraseIdx hp) sid2 d2 hreq
      · simp [hp] at hreq
        exact hreq.1 ▸ hsid
  · exact h

theorem SessionInv_stepCreateAgentDone (s : Client) (i : Nat) (reply : Except AxiosError Unit)
    (h : SessionInv s) : SessionInv (stepCreateAgentDone s i reply) := by
  unfold stepCreateAgentDone
  split
  · rename_i k sessionId data hx
    have hsid : SessionForm sessionId := h.1 _ (List.get?_mem hx) sessionId data rfl
    dsimp only
    rcases reply with e | u
    · simp only [handleUploadCreated]
      exact ⟨fun p hp => h.1 p (List.mem_of_mem_eraseIdx hp), h.2.1, h.2.2⟩
    · simp only [handleUploadCreated]
      exact SessionInv_handoff _ _ _
        ⟨fun p hp => h.1 p (List.mem_of_mem_eraseIdx hp), h.2.1, h.2.2⟩ hsid
  · exact h

theorem SessionInv_stepChatDone (s : Client) (i : Nat) (reply : Except AxiosError ChatResponse)
    (now : Nat) (h : SessionInv s) : SessionInv (stepChatDone s i reply now) := by
  unfold stepChatDone
  split
  · exact ⟨fun p hp => h.1 p (List.mem_of_mem_eraseIdx hp), h.2.1, h.2.2⟩
  · exact ⟨fun p hp => h.1 p (List.mem_of_mem_eraseIdx hp), h.2.1, h.2.2⟩
  · exact h

theorem SessionInv_step (s : Client) (e : Event) (h : SessionInv s) : SessionInv (step s e) := by
  cases e with
  | selectFile sel =>
    simp only [step]
    split_ifs <;> exact h
  | clickParse => exact SessionInv_stepClickParse s h
  | clickReset =>
    simp only [step]
    split_ifs <;> exact h
  | clickStart now =>
    simp only [step, stepClickStart]
    split_ifs
    · exact h
    · cases hp : s.resumeParser.parsedData with
      | none => simpa [startJobHunting, hp] using h
      | some d =>
        simp only [startJobHunting, hp]
        exact SessionInv_handoff _ _ _ h (SessionForm_startSessionId now)
  | typeInput value =>
    simp only [step]
    split_ifs <;> exact h
  | send now => exact SessionInv_stepSend s now h
  | quickAction action =>
    simp only [step]
    split_ifs <;> exact h
  | toggleJob index =>
    simp only [step]
    split_ifs <;> exact h
  | uploadNew =>
    simp only [step]
    split_ifs with hm
    · have hm2 : s.app.resumeData.isSome = true := hm
      simp only [render, onReset, Option.isSome_none, Bool.false_eq_true, if_false, hm2, if_true]
      exact ⟨h.1, h.2.1, fun hc => by simp [Client.chatMounted] at hc⟩
    · exact h
  | parseResumeDone i reply now rnd => exact SessionInv_stepParseResumeDone s i reply now rnd h
  | createAgentDone i reply => exact SessionInv_stepCreateAgentDone s i reply h
  | chatDone i reply now => exact SessionInv_stepChatDone s i reply now h

theorem SessionInv_run (events : List Event) : SessionInv (run events) := by
  have hinv : ∀ (es : List Event) (s : Client), SessionInv s → SessionInv (es.foldl step s) := by
    intro es
    induction es with
    | nil => exact fun s hs => hs
    | cons e es ih => exact fun s hs => ih _ (SessionInv_step s e hs)
  exact hinv events Client.init SessionInv_init

/-- C14: for every session id the client generates, both the form
'session_<milliseconds>_<random>' built in `handleUpload` and the form
'session_<milliseconds>' built by the 'Start Job Hunting' button, the session
label `JobChatbot` shows (the first 8 characters of the id followed by '...')
is the constant string 'session_...'; so in every reachable state every
identifier handed to `onResumeParsed` gives that label, and it is the label
shown whenever `JobChatbot` is mounted. -/
theorem C14_session_label_constant (now : Nat) (rnd : String) (events : List Event) :
    sessionLabel (some (uploadSessionId now rnd)) = "session_..." ∧
      sessionLabel (some (startSessionId now)) = "session_..." ∧
      (∀ h ∈ (run events).handoffs, sessionLabel (some h.2) = "session_...") ∧
      ((run events).chatMounted = true →
        sessionLabel (run events).app.sessionId = "session_...") := by
  have hinv := SessionInv_run events
  refine ⟨sessionLabel_of_form _ (SessionForm_uploadSessionId now rnd),
    sessionLabel_of_form _ (SessionForm_startSessionId now),
    fun h hh => sessionLabel_of_form _ (hinv.2.1 h hh), ?_⟩
  intro hm
  obtain ⟨sid, hs, hf⟩ := hinv.2.2 hm
  rw [hs]
  exact sessionLabel_of_form _ hf

/-- The label of the session of `startAfterFailedCreate`. -/
theorem C14_session_label_constant_witness :
    (run startAfterFailedCreate).chatMounted = true ∧
      sessionLabel (run startAfterFailedCreate).app.sessionId = "session_..." :=
  ⟨by rfl, (C14_session_label_constant 0 "" startAfterFailedCreate).2.2.2 (by rfl)⟩

/-! ## The match chip -/

theorem mathRound_nearest (x : ℚ) :
    ((mathRound x : ℤ) : ℚ) - 1 / 2 ≤ x ∧ x < ((mathRound x : ℤ) : ℚ) + 1 / 2 := by
  unfold mathRound
  have h1 := Int.floor_le (x + 1 / 2)
  have h2 := Int.lt_floor_add_one (x + 1 / 2)
  constructor <;> linarith

theorem mathRound_unique (x : ℚ) (n : ℤ) (h1 : (n : ℚ) - 1 / 2 ≤ x) (h2 : x < (n : ℚ) + 1 / 2) :
    mathRound x = n := by
  unfold mathRound
  rw [Int.floor_eq_iff]
  constructor <;> linarith

theorem mathRound_percent_bounds (s : ℚ) (h0 : 0 ≤ s) (h1 : s ≤ 1) :
    0 ≤ mathRound (s * 100) ∧ mathRound (s * 100) ≤ 100 := by
  unfold mathRound
  constructor
  · apply Int.floor_nonneg.2
    linarith
  · have : ⌊s * 100 + 1 / 2⌋ < 101 := by
      rw [Int.floor_lt]
      push_cast
      linarith
    omega

theorem chipColor_success_iff (job : Job) :
    chipColor job = "success" ↔ job.match_score > 0.7 := by
  unfold chipColor
  split_ifs with h1 h2
  · simp [h1]
  · simp [h1]
  · simp [h1]

theorem chipColor_warning_iff (job : Job) :
    chipColor job = "warning" ↔ 0.4 < job.match_score ∧ job.match_score ≤ 0.7 := by
  unfold chipColor
  split_ifs with h1 h2
  · simp
    intro _
    exact h1
  · simp
    exact ⟨h2, not_lt.1 h1⟩
  · simp
    intro h
    exact absurd h h2

theorem chipColor_default_iff (job : Job) :
    chipColor job = "default" ↔ job.match_score ≤ 0.4 := by
  unfold chipColor
  split_ifs with h1 h2
  · simp
    have : (0.4 : ℚ) < 0.7 := by norm_num
    exact lt_trans this h1
  · simp
    exact h2
  · simp
    exact not_lt.1 h2

theorem colorRank_chipColor (job : Job) :
    colorRank (chipColor job) =
      if job.match_score > 0.7 then 2 else if job.match_score > 0.4 then 1 else 0 := by
  unfold chipColor
  split_ifs <;> simp [colorRank]

/-- C12: for every `match_score` s with 0 <= s <= 1, taken as an exact
rational, the number in the label of the match chip is the integer nearest
to 100*s with halves rounded up (the one integer n with
n - 1/2 <= 100*s < n + 1/2), it lies between 0 and 100 inclusive, and the
colour of the chip is 'success' iff s > 0.7, 'warning' iff 0.4 < s <= 0.7 and
'default' iff s <= 0.4; so the colour, ordered default < warning < success,
is monotone non-decreasing in s. -/
theorem C12_match_chip_label_and_colour (job job2 : Job)
    (h0 : 0 ≤ job.match_score) (h1 : job.match_score ≤ 1) :
    (∃ n : ℤ, chipLabel job = toString n ++ "% match" ∧
      (n : ℚ) - 1 / 2 ≤ 100 * job.match_score ∧ 100 * job.match_score < (n : ℚ) + 1 / 2 ∧
      (∀ m : ℤ, (m : ℚ) - 1 / 2 ≤ 100 * job.match_score →
        100 * job.match_score < (m : ℚ) + 1 / 2 → m = n) ∧
      0 ≤ n ∧ n ≤ 100) ∧
    (chipColor job = "success" ↔ job.match_score > 0.7) ∧
    (chipColor job = "warning" ↔ 0.4 < job.match_score ∧ job.match_score ≤ 0.7) ∧
    (chipColor job = "default" ↔ job.match_score ≤ 0.4) ∧
    (job.match_score ≤ job2.match_score →
      colorRank (chipColor job) ≤ colorRank (chipColor job2)) := by
  refine ⟨⟨mathRound (job.match_score * 100), rfl, ?_, ?_, ?_, ?_⟩,
    chipColor_success_iff job, chipColor_warning_iff job, chipColor_default_iff job, ?_⟩
  · have := (mathRound_nearest (job.match_score * 100)).1
    linarith
  · have := (mathRound_nearest (job.match_score * 100)).2
    linarith
  · intro m hm1 hm2
    exact (mathRound_unique (job.match_score * 100) m (by linarith) (by linarith)).symm
  · exact mathRound_percent_bounds _ h0 h1
  · intro hle
    rw [colorRank_chipColor, colorRank_chipColor]
    split_ifs with a b c d e f <;> first | omega | (exfalso; linarith)

/-- A score of 3/4 is labelled 75 and coloured 'success'; a score of 1/2 is
coloured 'warning'. -/
theorem C12_match_chip_label_and_colour_witness :
    (0 : ℚ) ≤ sampleJob.match_score ∧ sampleJob.match_score ≤ 1 ∧
      chipColor sampleJob = "success" ∧
      colorRank (chipColor otherJob) ≤ colorRank (chipColor sampleJob) :=
  have h0 : (0 : ℚ) ≤ sampleJob.match_score := by norm_num [sampleJob]
  have h1 : sampleJob.match_score ≤ 1 := by norm_num [sampleJob]
  have g0 : (0 : ℚ) ≤ otherJob.match_score := by norm_num [otherJob]
  have g1 : otherJob.match_score ≤ 1 := by norm_num [otherJob]
  ⟨h0, h1,
   (C12_match_chip_label_and_colour sampleJob otherJob h0 h1).2.1.2 (by norm_num [sampleJob]),
   (C12_match_chip_label_and_colour otherJob sampleJob g0 g1).2.2.2.2
     (by norm_num [otherJob, sampleJob])⟩

/-! ## The quick-action phrasings under the keyword rules -/

/-- When every rule of `rules` that applies to the utterance gives `intent`
and one of them does apply, the classification is `intent`. -/
theorem classifyWith_of_unique (rules : List (Intent × List String)) (utterance : String)
    (intent : Intent)
    (hex : ∃ r ∈ rules, ruleApplies utterance r = true)
    (hall : ∀ r ∈ rules, ruleApplies utterance r = true → r.1 = intent) :
    classifyWith rules utterance = intent := by
  unfold classifyWith
  cases hf : rules.find? (ruleApplies utterance) with
  | none =>
    obtain ⟨r, hr, ha⟩ := hex
    have := List.find?_eq_none.1 hf r hr
    exact absurd ha this
  | some r =>
    exact hall r (List.mem_of_find?_eq_some hf) (List.find?_some hf)

/-- C11: each of the three quick-action phrasings that `handleQuickAction`
puts in the input, compared case-insensitively by substring, contains a
keyword of its own intent under the keyword rule of the spec and no keyword
of the other two intents: the 'search_jobs' phrasing contains 'job' and none
of 'feedback', 'review resume', 'advice', 'career'; the 'resume_feedback'
phrasing contains 'feedback' and none of 'job', 'opportunity', 'search',
'advice', 'career'; the 'career_advice' phrasing contains 'advice' and
'career' and none of 'job', 'opportunity', 'search', 'feedback',
'review resume'. So in whatever order the three keyword rules are tried, the
phrasings are classified SEARCH_JOBS, RESUME_FEEDBACK and CAREER_ADVICE. -/
theorem C11_quick_action_phrasings_unambiguous (c : JobChatbot)
    (rules : List (Intent × List String)) (hperm : rules.Perm keywordRules) :
    (jsIncludes (jsToLowerCase (handleQuickAction c "search_jobs").inputMessage) "job" = true ∧
      ∀ k ∈ ["feedback", "review resume", "advice", "career"],
        jsIncludes (jsToLowerCase (handleQuickAction c "search_jobs").inputMessage) k = false) ∧
    (jsIncludes (jsToLowerCase (handleQuickAction c "resume_feedback").inputMessage) "feedback"
        = true ∧
      ∀ k ∈ ["job", "opportunity", "search", "advice", "career"],
        jsIncludes (jsToLowerCase (handleQuickAction c "resume_feedback").inputMessage) k
          = false) ∧
    (jsIncludes (jsToLowerCase (handleQuickAction c "career_advice").inputMessage) "advice"
        = true ∧
      jsIncludes (jsToLowerCase (handleQuickAction c "career_advice").inputMessage) "career"
        = true ∧
      ∀ k ∈ ["job", "opportunity", "search", "feedback", "review resume"],
        jsIncludes (jsToLowerCase (handleQuickAction c "career_advice").inputMessage) k
          = false) ∧
    classifyWith rules (handleQuickAction c "search_jobs").inputMessage = Intent.SEARCH_JOBS ∧
    classifyWith rules (handleQuickAction c "resume_feedback").inputMessage
      = Intent.RESUME_FEEDBACK ∧
    classifyWith rules (handleQuickAction c "career_advice").inputMessage
      = Intent.CAREER_ADVICE := by
  have e1 : (handleQuickAction c "search_jobs").inputMessage =
      "Find me job opportunities matching my skills" := rfl
  have e2 : (handleQuickAction c "resume_feedback").inputMessage =
      "Give me feedback on my resume" := rfl
  have e3 : (handleQuickAction c "career_advice").inputMessage =
      "What career advice do you have for me?" := rfl
  rw [e1, e2, e3]
  have hmem : ∀ r, r ∈ rules ↔ r ∈ keywordRules := fun r => hperm.mem_iff
  refine ⟨⟨by decide, by decide⟩, ⟨by decide, by decide⟩, ⟨by decide, by decide, by decide⟩,
    ?_, ?_, ?_⟩
  · apply classifyWith_of_unique
    · exact ⟨(Intent.SEARCH_JOBS, ["job", "opportunity", "search"]),
        (hmem _).2 (by simp [keywordRules]), by decide⟩
    · intro r hr
      have hk := (hmem r).1 hr
      simp only [keywordRules, List.mem_cons, List.mem_singleton, List.not_mem_nil,
        or_false] at hk
      rcases hk with rfl | rfl | rfl
      · intro _; rfl
      · intro h; exact absurd h (by decide)
      · intro h; exact absurd h (by decide)
  · apply classifyWith_of_unique
    · exact ⟨(Intent.RESUME_FEEDBACK, ["feedback", "review resume"]),
        (hmem _).2 (by simp [keywordRules]), by decide⟩
    · intro r hr
      have hk := (hmem r).1 hr
      simp only [keywordRules, List.mem_cons, List.mem_singleton, List.not_mem_nil,
        or_false] at hk
      rcases hk with rfl | rfl | rfl
      · intro h; exact absurd h (by decide)
      · intro _; rfl
      · intro h; exact absurd h (by decide)
  · apply classifyWith_of_unique
    · exact ⟨(Intent.CAREER_ADVICE, ["advice", "career"]),
        (hmem _).2 (by simp [keywordRules]), by decide⟩
    · intro r hr
      have hk := (hmem r).1 hr
      simp only [keywordRules, List.mem_cons, List.mem_singleton, List.not_mem_nil,
        or_false] at hk
      rcases hk with rfl | rfl | rfl
      · intro h; exact absurd h (by decide)
      · intro h; exact absurd h (by decide)
      · intro _; rfl

/-- The rules tried in the reverse order give the same intents. -/
theorem C11_quick_action_phrasings_unambiguous_witness :
    keywordRules.reverse.Perm keywordRules ∧
      classifyWith keywordRules.reverse
        (handleQuickAction JobChatbot.init "career_advice").inputMessage
        = Intent.CAREER_ADVICE :=
  ⟨List.reverse_perm _,
   (C11_quick_action_phrasings_unambiguous JobChatbot.init keywordRules.reverse
      (List.reverse_perm _)).2.2.2.2.2⟩

/-! ## The ids of the transcript -/

/-- C13, on the code: with the non-decreasing clock readings 1000, 5000, 6000,
6001, 7000 the transcript of `turnsOneMillisecondApart` has the ids 1000,
5000, 6001, 6001, 7001: the first assistant reply and the second user
message share the id 6001, so the ids are not pairwise distinct. -/
theorem C13_ids_collide_one_millisecond_apart :
    nonDecreasing (clockReadings 1000 turnsOneMillisecondApart) = true ∧
      messageIds (chatSession (some "session_1") 1000
        (.ok { message := "Hello", job_suggestions := none }) turnsOneMillisecondApart)
        = [1000, 5000, 6001, 6001, 7001] ∧
      ¬ (messageIds (chatSession (some "session_1") 1000
        (.ok { message := "Hello", job_suggestions := none })
        turnsOneMillisecondApart)).Nodup := by
  refine ⟨by decide, by rfl, ?_⟩
  rw [show messageIds (chatSession (some "session_1") 1000
        (.ok { message := "Hello", job_suggestions := none }) turnsOneMillisecondApart)
        = [1000, 5000, 6001, 6001, 7001] from rfl]
  decide

theorem messageIds_chatTurn (sessionId : Option String) (c : JobChatbot) (t : Turn) :
    messageIds (chatTurn sessionId c t) = messageIds c ∨
      messageIds (chatTurn sessionId c t) = messageIds c ++ [t.sendAt, t.replyAt + 1] := by
  unfold chatTurn
  cases hb : sendBlocked { c with inputMessage := t.input } with
  | true =>
    left
    simp [handleSendMessage, handleSendMessageBegin, hb, messageIds]
  | false =>
    right
    rw [handleSendMessage_of_open _ sessionId t.sendAt t.replyAt t.reply hb]
    simp [messageIds, handleSendMessageEnd_messages]

theorem messageIds_initChat (sessionId : Option String) (now : Nat)
    (greeting : Except AxiosError ChatResponse) :
    messageIds (initChat JobChatbot.init sessionId now greeting).1 = [] ∨
      messageIds (initChat JobChatbot.init sessionId now greeting).1 = [now] := by
  unfold initChat
  split_ifs
  · rcases greeting with e | r
    · left
      rfl
    · right
      cases hj : r.job_suggestions <;> simp [messageIds, initChatBegin, initChatEnd, hj]
  · left
    rfl

/-- Increasing ids that do not exceed `latest` stay increasing over turns
sent on a clock spaced from `latest`. -/
theorem ids_increasing_foldl (sessionId : Option String) (turns : List Turn) (c : JobChatbot)
    (latest : Nat) (hinc : (messageIds c).Pairwise (fun a b => a < b))
    (hle : ∀ i ∈ messageIds c, i ≤ latest) (hs : SpacedFrom latest turns) :
    (messageIds (turns.foldl (chatTurn sessionId) c)).Pairwise (fun a b => a < b) := by
  induction turns generalizing c latest with
  | nil => exact hinc
  | cons t ts ih =>
    obtain ⟨h1, h2, h3⟩ := hs
    refine ih (chatTurn sessionId c t) (t.replyAt + 1) ?_ ?_ h3
    · rcases messageIds_chatTurn sessionId c t with h | h
      · rw [h]
        exact hinc
      · rw [h, List.pairwise_append]
        refine ⟨hinc, by simp; omega, ?_⟩
        intro a ha b hb
        have := hle a ha
        simp at hb
        omega
    · intro i hi
      rcases messageIds_chatTurn sessionId c t with h | h
      · rw [h] at hi
        have := hle i hi
        omega
      · rw [h] at hi
        simp at hi
        rcases hi with hi | hi | hi
        · have := hle i hi
          omega
        · omega
        · omega

/-- When the clock has moved on by at least one millisecond past the latest
id each time a turn is sent, the ids of the transcript are strictly
increasing, hence pairwise distinct. -/
theorem ids_distinct_when_spaced (sessionId : Option String) (greetAt : Nat)
    (greeting : Except AxiosError ChatResponse) (turns : List Turn)
    (hs : SpacedFrom greetAt turns) :
    (messageIds (chatSession sessionId greetAt greeting turns)).Pairwise (fun a b => a < b) ∧
      (messageIds (chatSession sessionId greetAt greeting turns)).Nodup := by
  have h : (messageIds (chatSession sessionId greetAt greeting turns)).Pairwise
      (fun a b => a < b) := by
    unfold chatSession
    rcases messageIds_initChat sessionId greetAt greeting with h0 | h0
    · exact ids_increasing_foldl sessionId turns _ greetAt (by simp [h0]) (by simp [h0]) hs
    · exact ids_increasing_foldl sessionId turns _ greetAt (by simp [h0]) (by simp [h0]) hs
  exact ⟨h, h.imp (fun hab => Nat.ne_of_lt hab)⟩

/-! ## A chat turn on the client -/

theorem handleQuickAction_messages (c : JobChatbot) (a : String) :
    (handleQuickAction c a).messages = c.messages := by
  unfold handleQuickAction
  split_ifs <;> rfl

theorem handleQuickAction_jobSuggestions (c : JobChatbot) (a : String) :
    (handleQuickAction c a).jobSuggestions = c.jobSuggestions := by
  unfold handleQuickAction
  split_ifs <;> rfl

theorem eraseIdx_append_last (l : List Pending) (x : Pending) :
    (l ++ [x]).eraseIdx l.length = l := by
  induction l with
  | nil => rfl
  | cons a t ih => simp [List.eraseIdx_cons_succ, ih]

/-- While `JobChatbot` is mounted with `loading` true, a user action other
than 'Upload New Resume' changes neither the transcript, nor the job list,
nor `loading`, nor the requests in flight. -/
theorem SameTurn_step (s : Client) (e : Event) (he : e.isUserAction = true)
    (hm : s.chatMounted = true) (hl : s.jobChatbot.loading = true) :
    SameTurn s (step s e) := by
  have hrefl : SameTurn s s := ⟨rfl, rfl, rfl, rfl, rfl, rfl⟩
  cases e with
  | selectFile sel => simpa [step, hm] using hrefl
  | clickParse => simpa [step, stepClickParse, hm] using hrefl
  | clickReset => simpa [step, hm] using hrefl
  | clickStart now => simpa [step, stepClickStart, hm] using hrefl
  | typeInput value => simpa [step, hm, hl] using hrefl
  | send now =>
    simp only [step]
    rw [stepSend_of_loading s now hl]
    exact hrefl
  | quickAction action =>
    simp only [step, hm, if_true]
    exact ⟨rfl, rfl, rfl, handleQuickAction_messages _ _, handleQuickAction_jobSuggestions _ _,
      handleQuickAction_loading _ _⟩
  | toggleJob index =>
    simp only [step, hm, if_true]
    exact ⟨rfl, rfl, rfl, rfl, rfl, rfl⟩
  | uploadNew => simp [Event.isUserAction] at he
  | parseResumeDone i reply now rnd => simp [Event.isUserAction] at he
  | createAgentDone i reply => simp [Event.isUserAction] at he
  | chatDone i reply now => simp [Event.isUserAction] at he

theorem SameTurn_foldl (between : List Event) (s t : Client)
    (hb : ∀ e ∈ between, e.isUserAction = true) (hm : s.chatMounted = true)
    (hl : s.jobChatbot.loading = true) (h : SameTurn s t) :
    SameTurn s (between.foldl step t) := by
  induction between generalizing t with
  | nil => exact h
  | cons e es ih =>
    have hmt : t.chatMounted = true := by
      simpa [Client.chatMounted, h.1] using hm
    have hlt : t.jobChatbot.loading = true := by rw [h.2.2.2.2.2, hl]
    have h2 := SameTurn_step t e (hb e (List.mem_cons_self _ _)) hmt hlt
    refine ih (step t e) (fun x hx => hb x (List.mem_cons_of_mem _ hx)) ?_
    exact ⟨h2.1.trans h.1, h2.2.1.trans h.2.1, h2.2.2.1.trans h.2.2.1,
      h2.2.2.2.1.trans h.2.2.2.1, h2.2.2.2.2.1.trans h.2.2.2.2.1,
      h2.2.2.2.2.2.trans h.2.2.2.2.2⟩

/-- A call of `handleSendMessage` that passes the guard, on the client. -/
theorem step_send_of_open (s : Client) (now : Nat) (hm : s.chatMounted = true)
    (hopen : sendBlocked s.jobChatbot = false) :
    step s (Event.send now) =
      { s with
        jobChatbot :=
          { s.jobChatbot with
            messages := s.jobChatbot.messages ++
              [{ id := now, role := "user", content := s.jobChatbot.inputMessage,
                 jobSuggestions := none }],
            inputMessage := "", loading := true },
        pending := s.pending ++
          [{ inst := s.inst, caller := Caller.handleSendMessage,
             request := Request.chat (jsTemplate s.app.sessionId)
               { role := "user", content := s.jobChatbot.inputMessage } }],
        sent := s.sent ++
          [Request.chat (jsTemplate s.app.sessionId)
            { role := "user", content := s.jobChatbot.inputMessage }] } := by
  simp [step, stepSend, hm, handleSendMessageBegin, hopen]

/-- A chat turn during which no other reply is handled and 'Upload New Resume'
is not pressed: when its reply has been handled, the state of `JobChatbot` is
what `handleSendMessageEnd` makes of the transcript with the user message
appended and of the job list held at the send. -/
theorem turnFrom_of_user_actions (s : Client) (now now2 : Nat) (between : List Event)
    (reply : Except AxiosError ChatResponse) (hm : s.chatMounted = true)
    (hopen : sendBlocked s.jobChatbot = false)
    (hb : ∀ e ∈ between, e.isUserAction = true) :
    (turnFrom s now between reply now2).jobChatbot.messages =
        s.jobChatbot.messages ++
          [{ id := now, role := "user", content := s.jobChatbot.inputMessage,
             jobSuggestions := none },
           { id := now2 + 1, role := "assistant", content := replyText reply,
             jobSuggestions := some (replyJobs reply) }] ∧
      (turnFrom s now between reply now2).jobChatbot.loading = false ∧
      (turnFrom s now between reply now2).jobChatbot.jobSuggestions =
        (handleSendMessageEnd s.jobChatbot now2 reply).jobSuggestions ∧
      (turnFrom s now between reply now2).pending = s.pending := by
  have hs1 := step_send_of_open s now hm hopen
  unfold turnFrom
  have fapp : (step s (Event.send now)).app = s.app := by rw [hs1]
  have finst : (step s (Event.send now)).inst = s.inst := by rw [hs1]
  have fpend : (step s (Event.send now)).pending = s.pending ++
      [{ inst := s.inst, caller := Caller.handleSendMessage,
         request := Request.chat (jsTemplate s.app.sessionId)
           { role := "user", content := s.jobChatbot.inputMessage } }] := by rw [hs1]
  have fmsg : (step s (Event.send now)).jobChatbot.messages = s.jobChatbot.messages ++
      [{ id := now, role := "user", content := s.jobChatbot.inputMessage,
         jobSuggestions := none }] := by rw [hs1]
  have fjobs : (step s (Event.send now)).jobChatbot.jobSuggestions =
      s.jobChatbot.jobSuggestions := by rw [hs1]
  have fload : (step s (Event.send now)).jobChatbot.loading = true := by rw [hs1]
  have fm : (step s (Event.send now)).chatMounted = true := by
    simpa [Client.chatMounted, fapp] using hm
  obtain ⟨happ, hinst, hpend, hmsg, hjobs, hload⟩ :=
    SameTurn_foldl between (step s (Event.send now)) (step s (Event.send now)) hb fm fload
      ⟨rfl, rfl, rfl, rfl, rfl, rfl⟩
  generalize between.foldl step (step s (Event.send now)) = s2
    at happ hinst hpend hmsg hjobs hload ⊢
  rw [fapp] at happ
  rw [finst] at hinst
  rw [fpend] at hpend
  rw [fmsg] at hmsg
  rw [fjobs] at hjobs
  have hget : s2.pending.get? s.pending.length =
      some { inst := s.inst, caller := Caller.handleSendMessage,
             request := Request.chat (jsTemplate s.app.sessionId)
               { role := "user", content := s.jobChatbot.inputMessage } } := by
    rw [hpend]
    simp
  have hmt : s2.chatMounted = true := by
    simpa [Client.chatMounted, happ] using hm
  have hend : (step s2 (Event.chatDone s.pending.length reply now2)).jobChatbot =
        handleSendMessageEnd s2.jobChatbot now2 reply ∧
      (step s2 (Event.chatDone s.pending.length reply now2)).pending = s.pending := by
    show (stepChatDone s2 s.pending.length reply now2).jobChatbot = _ ∧
      (stepChatDone s2 s.pending.length reply now2).pending = _
    unfold stepChatDone
    rw [hget]
    simp [hinst, hmt, hpend, eraseIdx_append_last]
  rw [hend.1]
  refine ⟨?_, handleSendMessageEnd_loading _ _ _, ?_, hend.2⟩
  · rw [handleSendMessageEnd_messages, hmsg]
    simp
  · rw [handleSendMessageEnd_jobSuggestions, handleSendMessageEnd_jobSuggestions, hjobs]
/-! ## A chat turn when the 'Start Job Hunting' button is not pressed -/

theorem mem_eraseIdx_of_ne (l : List Pending) (i : Nat) (q x : Pending)
    (hq : l.get? i = some q) (hx : x ∈ l) (hne : q ≠ x) : x ∈ l.eraseIdx i := by
  induction l generalizing i with
  | nil => simp at hx
  | cons a t ih =>
    cases i with
    | zero =>
      have ha : a = q := by simpa using hq
      simp only [List.eraseIdx_cons_zero]
      rcases List.mem_cons.1 hx with h | h
      · exact absurd (ha ▸ h.symm) hne
      · exact h
    | succ n =>
      have hq2 : t.get? n = some q := by simpa using hq
      simp only [List.eraseIdx_cons_succ]
      rcases List.mem_cons.1 hx with h | h
      · exact h ▸ List.mem_cons_self _ _
      · exact List.mem_cons_of_mem _ (ih n hq2 h)

theorem eq_of_countP_eq_one (q : Pending → Bool) (l : List Pending) (x y : Pending)
    (hc : l.countP q = 1) (hx : x ∈ l) (hqx : q x = true) (hy : y ∈ l) (hqy : q y = true) :
    x = y := by
  induction l with
  | nil => simp at hx
  | cons a t ih =>
    rw [List.countP_cons] at hc
    by_cases ha : q a = true
    · simp only [ha, if_true] at hc
      have h0 : t.countP q = 0 := by omega
      rw [List.countP_eq_zero] at h0
      have hxa : x = a := by
        rcases List.mem_cons.1 hx with h | h
        · exact h
        · exact absurd hqx (h0 x h)
      have hya : y = a := by
        rcases List.mem_cons.1 hy with h | h
        · exact h
        · exact absurd hqy (h0 y h)
      rw [hxa, hya]
    · simp only [ha] at hc
      have hxt : x ∈ t := by
        rcases List.mem_cons.1 hx with h | h
        · exact absurd (h ▸ hqx) ha
        · exact h
      have hyt : y ∈ t := by
        rcases List.mem_cons.1 hy with h | h
        · exact absurd (h ▸ hqy) ha
        · exact h
      exact ih (by simpa using hc) hxt hyt

/-- The three ways `stepChatDone` can go: the event is ignored; the reply is
handled by the mounted instance, which ends with `loading` false; or the
reply belongs to an instance that is no longer mounted and only leaves the
list of requests in flight. -/
theorem stepChatDone_cases (s : Client) (i : Nat) (reply : Except AxiosError ChatResponse)
    (now : Nat) :
    stepChatDone s i reply now = s ∨
      ∃ p, s.pending.get? i = some p ∧
        (((p.inst = s.inst ∧ s.chatMounted = true) ∧
            (stepChatDone s i reply now).jobChatbot.loading = false) ∨
         (¬ (p.inst = s.inst ∧ s.chatMounted = true) ∧
            stepChatDone s i reply now = { s with pending := s.pending.eraseIdx i })) := by
  unfold stepChatDone
  split
  · rename_i k sid body hget
    right
    refine ⟨_, hget, ?_⟩
    by_cases hlive : k = s.inst ∧ s.chatMounted = true
    · left
      refine ⟨hlive, ?_⟩
      simp only [hlive, and_self, if_true]
      exact initChatEnd_loading _ _ _
    · right
      refine ⟨hlive, ?_⟩
      simp only [hlive, if_false]
  · rename_i k sid body hget
    right
    refine ⟨_, hget, ?_⟩
    by_cases hlive : k = s.inst ∧ s.chatMounted = true
    · left
      refine ⟨hlive, ?_⟩
      simp only [hlive, and_self, if_true]
      exact handleSendMessageEnd_loading _ _ _
    · right
      refine ⟨hlive, ?_⟩
      simp only [hlive, if_false]
  · left
    rfl

/-- While `JobChatbot` is mounted, with `loading` true, in a state that
satisfies `SingleFlight`, an event that keeps the instance mounted and
`loading` true changes neither the transcript nor the job list and does not
take away a request in flight of the mounted instance. -/
theorem waiting_step (s : Client) (e : Event) (x : Pending) (h : SingleFlight s)
    (hm : s.chatMounted = true) (hl : s.jobChatbot.loading = true)
    (hx : x ∈ s.pending) (hxi : x.inst = s.inst)
    (hinst : (step s e).inst = s.inst) (hload : (step s e).jobChatbot.loading = true) :
    (step s e).chatMounted = true ∧
      (step s e).jobChatbot.messages = s.jobChatbot.messages ∧
      (step s e).jobChatbot.jobSuggestions = s.jobChatbot.jobSuggestions ∧
      x ∈ (step s e).pending := by
  have hnoup := (h.2.2.1 hm).1
  have huser : ∀ e2 : Event, e2.isUserAction = true →
      (step s e2).chatMounted = true ∧
      (step s e2).jobChatbot.messages = s.jobChatbot.messages ∧
      (step s e2).jobChatbot.jobSuggestions = s.jobChatbot.jobSuggestions ∧
      x ∈ (step s e2).pending := by
    intro e2 he2
    obtain ⟨a1, _, a3, a4, a5, _⟩ := SameTurn_step s e2 he2 hm hl
    exact ⟨by simpa [Client.chatMounted, a1] using hm, a4, a5, by rw [a3]; exact hx⟩
  cases e with
  | selectFile sel => exact huser _ rfl
  | clickParse => exact huser _ rfl
  | clickReset => exact huser _ rfl
  | clickStart now => exact huser _ rfl
  | typeInput value => exact huser _ rfl
  | send now => exact huser _ rfl
  | quickAction action => exact huser _ rfl
  | toggleJob index => exact huser _ rfl
  | uploadNew =>
    have hm2 : s.app.resumeData.isSome = true := hm
    simp [step, hm, render, onReset, hm2] at hinst
  | parseResumeDone i reply now rnd =>
    have hs : step s (Event.parseResumeDone i reply now rnd) = s := by
      simp only [step]
      unfold stepParseResumeDone
      split
      · rename_i k f hget
        have := hnoup _ (List.get?_mem hget)
        simp [isUpload] at this
      · rfl
    rw [hs]
    exact ⟨hm, rfl, rfl, hx⟩
  | createAgentDone i reply =>
    have hs : step s (Event.createAgentDone i reply) = s := by
      simp only [step]
      unfold stepCreateAgentDone
      split
      · rename_i k sid d hget
        have := hnoup _ (List.get?_mem hget)
        simp [isUpload] at this
      · rfl
    rw [hs]
    exact ⟨hm, rfl, rfl, hx⟩
  | chatDone i reply now =>
    simp only [step] at hinst hload ⊢
    rcases stepChatDone_cases s i reply now with hs | ⟨p, hget, hlive | ⟨hdead, hs⟩⟩
    · rw [hs]
      exact ⟨hm, rfl, rfl, hx⟩
    · rw [hlive.2] at hload
      exact absurd hload (by simp)
    · have hk : p.inst ≠ s.inst := fun hc => hdead ⟨hc, hm⟩
      have hne : p ≠ x := fun hc => hk (by rw [hc, hxi])
      rw [hs]
      exact ⟨hm, rfl, rfl, mem_eraseIdx_of_ne _ _ _ _ hget hx hne⟩

theorem waiting_foldl (between : List Event) (s : Client) (x : Pending) (h : SingleFlight s)
    (hm : s.chatMounted = true) (hl : s.jobChatbot.loading = true)
    (hx : x ∈ s.pending) (hxi : x.inst = s.inst)
    (hb : ∀ e ∈ between, e.isClickStart = false) (hw : StillWaiting s between) :
    SingleFlight (between.foldl step s) ∧
      (between.foldl step s).chatMounted = true ∧
      (between.foldl step s).inst = s.inst ∧
      (between.foldl step s).jobChatbot.loading = true ∧
      (between.foldl step s).jobChatbot.messages = s.jobChatbot.messages ∧
      (between.foldl step s).jobChatbot.jobSuggestions = s.jobChatbot.jobSuggestions ∧
      x ∈ (between.foldl step s).pending := by
  induction between generalizing s with
  | nil => exact ⟨h, hm, rfl, hl, rfl, rfl, hx⟩
  | cons e es ih =>
    obtain ⟨w1, w2, w3⟩ := hw
    obtain ⟨a1, a2, a3, a4⟩ := waiting_step s e x h hm hl hx hxi w1 w2
    have hstep := SingleFlight_step s e (hb e (List.mem_cons_self _ _)) h
    obtain ⟨b1, b2, b3, b4, b5, b6, b7⟩ := ih (step s e) hstep a1 w2 a4 (by rw [hxi, w1])
      (fun y hy => hb y (List.mem_cons_of_mem _ hy)) w3
    exact ⟨b1, b2, b3.trans w1, b4, b5.trans a2, b6.trans a3, b7⟩

/-- In every run in which the 'Start Job Hunting' button is never pressed, a
chat turn sent with the guard open keeps the transcript whole, whatever events
fall between the send and the reply while the instance stays mounted and
`loading` stays true: when a reply to a request of the mounted instance is
handled, the transcript is the one at the send followed by the user message
and the assistant message, `loading` is false, and the job list is what
`handleSendMessageEnd` makes of the list held at the send. -/
theorem turn_intact_without_start_button (events between : List Event) (now now2 i : Nat)
    (reply : Except AxiosError ChatResponse) (p : Pending)
    (he : ∀ e ∈ events, e.isClickStart = false) (hb : ∀ e ∈ between, e.isClickStart = false)
    (hm : (run events).chatMounted = true)
    (hopen : sendBlocked (run events).jobChatbot = false)
    (hw : StillWaiting (step (run events) (Event.send now)) between)
    (hp : (between.foldl step (step (run events) (Event.send now))).pending.get? i = some p)
    (hpi : p.inst = (run events).inst) :
    (step (between.foldl step (step (run events) (Event.send now)))
        (Event.chatDone i reply now2)).jobChatbot.messages =
        (run events).jobChatbot.messages ++
          [{ id := now, role := "user", content := (run events).jobChatbot.inputMessage,
             jobSuggestions := none },
           { id := now2 + 1, role := "assistant", content := replyText reply,
             jobSuggestions := some (replyJobs reply) }] ∧
      (step (between.foldl step (step (run events) (Event.send now)))
        (Event.chatDone i reply now2)).jobChatbot.loading = false ∧
      (step (between.foldl step (step (run events) (Event.send now)))
        (Event.chatDone i reply now2)).jobChatbot.jobSuggestions =
        (handleSendMessageEnd (run events).jobChatbot now2 reply).jobSuggestions := by
  have hsf : SingleFlight (run events) := SingleFlight_foldl events Client.init he SingleFlight_init
  generalize run events = s at hm hopen hw hp hpi hsf ⊢
  have hs1 := step_send_of_open s now hm hopen
  have hsf1 : SingleFlight (step s (Event.send now)) := SingleFlight_step s _ rfl hsf
  have fapp : (step s (Event.send now)).app = s.app := by rw [hs1]
  have finst : (step s (Event.send now)).inst = s.inst := by rw [hs1]
  have fmsg : (step s (Event.send now)).jobChatbot.messages = s.jobChatbot.messages ++
      [{ id := now, role := "user", content := s.jobChatbot.inputMessage,
         jobSuggestions := none }] := by rw [hs1]
  have fjobs : (step s (Event.send now)).jobChatbot.jobSuggestions =
      s.jobChatbot.jobSuggestions := by rw [hs1]
  have fload : (step s (Event.send now)).jobChatbot.loading = true := by rw [hs1]
  have fm : (step s (Event.send now)).chatMounted = true := by
    simpa [Client.chatMounted, fapp] using hm
  have fmem : (⟨s.inst, Caller.handleSendMessage, Request.chat (jsTemplate s.app.sessionId)
      ⟨"user", s.jobChatbot.inputMessage⟩⟩ : Pending) ∈ (step s (Event.send now)).pending := by
    rw [hs1]
    simp
  obtain ⟨g1, g2, g3, g4, g5, g6, g7⟩ := waiting_foldl between (step s (Event.send now)) _ hsf1
    fm fload fmem finst.symm hb hw
  generalize between.foldl step (step s (Event.send now)) = s2 at hp g1 g2 g3 g4 g5 g6 g7
  rw [finst] at g3
  rw [fmsg] at g5
  rw [fjobs] at g6
  have hcount := (g1.2.2.1 g2).2
  rw [g4] at hcount
  simp only [if_true] at hcount
  have hpeq : p = ⟨s.inst, Caller.handleSendMessage, Request.chat (jsTemplate s.app.sessionId)
      ⟨"user", s.jobChatbot.inputMessage⟩⟩ :=
    eq_of_countP_eq_one _ _ _ _ hcount (List.get?_mem hp) (by simp [hpi, g3]) g7
      (by simp [g3])
  rw [hpeq] at hp
  have hend : (step s2 (Event.chatDone i reply now2)).jobChatbot =
      handleSendMessageEnd s2.jobChatbot now2 reply := by
    show (stepChatDone s2 i reply now2).jobChatbot = _
    unfold stepChatDone
    rw [hp]
    simp [g3, g2]
  rw [hend]
  refine ⟨?_, handleSendMessageEnd_loading _ _ _, ?_⟩
  · rw [handleSendMessageEnd_messages, g5]
    simp
  · rw [handleSendMessageEnd_jobSuggestions, handleSendMessageEnd_jobSuggestions, g6]
/-! ## The transcript and the job list over a chat turn -/

/-- C2, on the code: after `secondHandoffWhileChatting` the send guard is open
(input 'hi', `loading` false) and the transcript is empty; the user sends
'hi', the reply of the second `initChat` is handled while the turn is in
flight, and when the turn's own reply has been handled the transcript is the
greeting followed by the turn's assistant message: the user message is gone,
so the transcript is not the previous one followed by a user message and an
assistant message. -/
theorem C2_turn_loses_user_message :
    (run secondHandoffWhileChatting).chatMounted = true ∧
      sendBlocked (run secondHandoffWhileChatting).jobChatbot = false ∧
      (run secondHandoffWhileChatting).jobChatbot.messages = [] ∧
      (run replyOfSecondInitChatDuringTurn).jobChatbot.messages =
        [ { id := 3500, role := "assistant", content := "Welcome", jobSuggestions := some [] },
          { id := 4001, role := "assistant", content := "answer", jobSuggestions := some [] } ] ∧
      (run replyOfSecondInitChatDuringTurn).jobChatbot.loading = false ∧
      (run replyOfSecondInitChatDuringTurn).pending = [] := by
  refine ⟨by rfl, by rfl, by rfl, by rfl, by rfl, by rfl⟩

/-- C8, refuted as stated: after `greetedWithSuggestions` the client shows
`[sampleJob]` and the send guard is open; the turn sent from there succeeds
with a zero-length `job_suggestions`, no other event falling in between, and
the list shown afterwards is still `[sampleJob]`, not empty. -/
theorem C8_empty_suggestions_counterexample :
    (run greetedWithSuggestions).chatMounted = true ∧
      sendBlocked (run greetedWithSuggestions).jobChatbot = false ∧
      (run greetedWithSuggestions).jobChatbot.jobSuggestions = [sampleJob] ∧
      (turnFrom (run greetedWithSuggestions) 2000 []
        (.ok { message := "none found", job_suggestions := some [] })
        2500).jobChatbot.jobSuggestions = [sampleJob] ∧
      (turnFrom (run greetedWithSuggestions) 2000 []
        (.ok { message := "none found", job_suggestions := some [] })
        2500).jobChatbot.messages.length = 3 ∧
      [sampleJob] ≠ ([] : List Job) := by
  refine ⟨by rfl, by rfl, by rfl, by rfl, by rfl, by simp⟩

/-- C8, amended: for every successful chat turn whose response carries a
zero-length `job_suggestions`, handling the reply leaves the job list as it
was right before, whatever the state of the component; and when, between the
send and the handling of its reply, no other reply is handled and
'Upload New Resume' is not pressed, the job list the client shows after the
turn is the list it showed before the turn, so the panel is in its
'No job suggestions yet' state after the turn exactly when it was before. -/
theorem C8_empty_suggestions_turn_keeps_list (c : JobChatbot) (s : Client) (now now2 : Nat)
    (between : List Event) (response : ChatResponse)
    (hjs : response.job_suggestions = some [])
    (hm : s.chatMounted = true) (hopen : sendBlocked s.jobChatbot = false)
    (hb : ∀ e ∈ between, e.isUserAction = true) :
    (handleSendMessageEnd c now2 (.ok response)).jobSuggestions = c.jobSuggestions ∧
      (turnFrom s now between (.ok response) now2).jobChatbot.jobSuggestions =
        s.jobChatbot.jobSuggestions ∧
      ((turnFrom s now between (.ok response) now2).jobChatbot.jobSuggestions.length = 0 ↔
        s.jobChatbot.jobSuggestions.length = 0) := by
  have hend : ∀ d : JobChatbot,
      (handleSendMessageEnd d now2 (.ok response)).jobSuggestions = d.jobSuggestions := by
    intro d
    rw [handleSendMessageEnd_jobSuggestions]
    simp [hjs]
  have h := (turnFrom_of_user_actions s now now2 between (.ok response) hm hopen hb).2.2.1
  rw [hend] at h
  exact ⟨hend c, h, by rw [h]⟩

/-- The list `[sampleJob]` survives an empty reply, the user pressing a quick
action and opening a job while the turn is in flight. -/
theorem C8_empty_suggestions_turn_keeps_list_witness :
    (run greetedWithSuggestions).chatMounted = true ∧
      sendBlocked (run greetedWithSuggestions).jobChatbot = false ∧
      (turnFrom (run greetedWithSuggestions) 2000
        [Event.quickAction "career_advice", Event.toggleJob 0]
        (.ok { message := "none found", job_suggestions := some [] })
        2500).jobChatbot.jobSuggestions = (run greetedWithSuggestions).jobChatbot.jobSuggestions :=
  ⟨by rfl, by rfl,
   (C8_empty_suggestions_turn_keeps_list JobChatbot.init (run greetedWithSuggestions) 2000 2500
      [Event.quickAction "career_advice", Event.toggleJob 0]
      { message := "none found", job_suggestions := some [] } rfl (by rfl) (by rfl)
      (by simp [Event.isUserAction])).2.1⟩

/-- A reply of another request handled during a turn can change the job list:
after `secondHandoffWhileChatting` the job list is empty and the guard is open; the
reply of the second `initChat` brings `[otherJob]` while the turn is in
flight, and after the turn's own reply, which carries a zero-length
`job_suggestions`, the list is `[otherJob]`. -/
theorem empty_reply_turn_with_other_reply :
    (run secondHandoffWhileChatting).jobChatbot.jobSuggestions = [] ∧
      sendBlocked (run secondHandoffWhileChatting).jobChatbot = false ∧
      (run suggestionsOfSecondInitChatDuringTurn).jobChatbot.jobSuggestions = [otherJob] := by
  refine ⟨by rfl, by rfl, by rfl⟩

end ResumeJobMatcher
